import Mathlib

/-!
# Package `query`: a GameSpy query responder

A shallow embedding of `query/packet.go`, `query/token_generator.go` and
`query/handler.go`, followed by theorems about the embedded functions.

Conventions of the embedding:

* a Go `string` or `[]byte` is a `List UInt8`;
* a `*bytes.Buffer` is the list of its unread bytes: reading removes bytes from
  the front, writing appends at the back, and `b.Bytes()` is the list itself;
* an `int32` is an `Int`, every conversion to `int32` being the explicit
  wrap-around `int32`;
* a Go `error` result is an `Option QueryError` (`none` is `nil`);
* a Go run-time panic is the outer `Option` being `none`;
* the mutexes are not modelled: every function runs alone from start to end;
* `crypto/sha512` is library code and is taken as a parameter (`Sha512`).
-/

namespace query

/-! ## Library primitives used by the package -/

/-- Bytes of a Go `string` or `[]byte`. -/
abbrev Bytes := List UInt8

/-- Unread part of a `bytes.Buffer`. -/
abbrev Buffer := List UInt8

/-- Error values the package can return: `io.EOF`, `io.ErrUnexpectedEOF`,
`fmt.Errorf("unknown request type %X", t)` and `errors.New("token mismatch")`. -/
inductive QueryError where
  | EOF
  | ErrUnexpectedEOF
  | unknownRequestType (t : UInt8)
  | tokenMismatch
  deriving DecidableEq, Repr

/-- Conversion `int32(x)`: two's-complement wrap-around into `[-2^31, 2^31)`. -/
def int32 (x : Int) : Int :=
  (x + 2147483648) % 4294967296 - 2147483648

/-- Conversion `uint32(x)` of a signed value: its residue modulo `2^32`. -/
def uint32 (x : Int) : Nat :=
  (x % 4294967296).toNat

/-- Go `binary.BigEndian.Uint32` on the four bytes `b0 b1 b2 b3`
(`b3 | b2<<8 | b1<<16 | b0<<24`). -/
def BigEndian.Uint32 (b0 b1 b2 b3 : UInt8) : Nat :=
  b3.toNat + b2.toNat * 256 + b1.toNat * 65536 + b0.toNat * 16777216

/-- Go `binary.BigEndian.PutUint32`: the four bytes of `u`, most significant first. -/
def BigEndian.PutUint32 (u : Nat) : Bytes :=
  [UInt8.ofNat (u / 16777216 % 256), UInt8.ofNat (u / 65536 % 256),
   UInt8.ofNat (u / 256 % 256), UInt8.ofNat (u % 256)]

/-- Go `binary.Read(r, binary.BigEndian, &x)` for a `byte` on a `bytes.Buffer`:
`io.ReadFull` of one byte; `io.EOF` when nothing is left. -/
def binaryReadByte (r : Buffer) : Except QueryError UInt8 × Buffer :=
  match r with
  | [] => (.error .EOF, [])
  | b :: rest => (.ok b, rest)

/-- Go `binary.Read(r, binary.BigEndian, &x)` for an `int32` on a `bytes.Buffer`:
`io.ReadFull` of four bytes, decoded big-endian and converted to `int32`.
With no byte left the error is `io.EOF`; with one to three bytes left they are
consumed and the error is `io.ErrUnexpectedEOF`. -/
def binaryReadInt32 (r : Buffer) : Except QueryError Int × Buffer :=
  match r with
  | b0 :: b1 :: b2 :: b3 :: rest => (.ok (int32 (BigEndian.Uint32 b0 b1 b2 b3)), rest)
  | [] => (.error .EOF, [])
  | _ => (.error .ErrUnexpectedEOF, [])

/-- Go `(*bytes.Buffer).Read(p)` with `len(p) = n`: on an empty buffer it returns
`io.EOF` (unless `n = 0`); otherwise it copies `min n len` bytes, consumes
them and returns no error, also when fewer than `n` bytes were available. -/
def Buffer.Read (b : Buffer) (n : Nat) : (Bytes × Option QueryError) × Buffer :=
  match b with
  | [] => if n = 0 then (([], none), []) else (([], some .EOF), [])
  | _ :: _ => ((b.take n, none), b.drop n)

/-- Go `binary.Write(w, binary.BigEndian, x)` for a `byte`. -/
def binaryWriteByte (w : Buffer) (x : UInt8) : Buffer :=
  w ++ [x]

/-- Go `binary.Write(w, binary.BigEndian, x)` for an `int32`. -/
def binaryWriteInt32 (w : Buffer) (x : Int) : Buffer :=
  w ++ BigEndian.PutUint32 (uint32 x)

/-- Digit loop of Go `fmt` for base 10: the decimal digits of `u`, most
significant first, put in front of `acc`. The first argument bounds the number
of iterations; `u + 1` is always enough. -/
def decimalDigits : Nat → Nat → Bytes → Bytes
  | 0, _, acc => acc
  | fuel + 1, u, acc =>
    if u < 10 then UInt8.ofNat (48 + u) :: acc
    else decimalDigits fuel (u / 10) (UInt8.ofNat (48 + u % 10) :: acc)

/-- Go `fmt.Sprint(n)` for an integer: a minus sign for negative values, then
the decimal digits of the magnitude. -/
def Sprint (n : Int) : Bytes :=
  if n < 0 then 45 :: decimalDigits (n.natAbs + 1) n.natAbs []
  else decimalDigits (n.natAbs + 1) n.natAbs []

/-- Go `make([]byte, n)`: `n` zero bytes; panics when `n` is negative. -/
def makeBytes (n : Int) : Option Bytes :=
  if n < 0 then none else some (List.replicate n.toNat 0)

/-- Go `bytes.Join(s, sep)`: the first element, then for every further element
`sep` and the element. -/
def bytesJoin (s : List Bytes) (sep : Bytes) : Bytes :=
  match s with
  | [] => []
  | s0 :: rest => rest.foldl (fun b v => b ++ sep ++ v) s0

/-- Package `crypto/sha512` as used by `getTokenString`: `Sum m` is the digest
of the message `m`, always `Size = 64` bytes long. -/
structure Sha512 where
  Sum : Bytes → Bytes
  Size : ∀ m, (Sum m).length = 64

/-- Go `net.Addr`: an interface with the methods `Network()` and `String()`. -/
structure Addr where
  Network : Bytes
  String : Bytes
  deriving DecidableEq, Repr

/-! ## `packet.go` -/

/-- Go `splitNum`: the text SPLITNUM and a null byte. -/
def splitNum : Bytes := [0x53, 0x50, 0x4c, 0x49, 0x54, 0x4e, 0x55, 0x4d, 0x00]

/-- Go `playerKey`: `00 01 p l a y e r _ 00`. -/
def playerKey : Bytes := [0x00, 0x01, 0x70, 0x6c, 0x61, 0x79, 0x65, 0x72, 0x5f, 0x00]

/-- Go `queryTypeHandshake`. -/
def queryTypeHandshake : UInt8 := 0x09

/-- Go `queryTypeInformation`. -/
def queryTypeInformation : UInt8 := 0x00

/-- Go `request`. The default value is the zero value `request{}`. -/
structure request where
  RequestType : UInt8 := 0
  SequenceNumber : Int := 0
  ResponseNumber : Int := 0
  Token : Int := 0
  deriving DecidableEq, Repr

/-- Go `response`. `Information` lists the pairs of the map in the order in
which the `range` statement of `Marshal` visits them (Go leaves that order
open). The default value is the zero value `response{}`. -/
structure response where
  ResponseType : UInt8 := 0
  SequenceNumber : Int := 0
  ResponseNumber : Int := 0
  Information : List (Bytes × Bytes) := []
  Players : List Bytes := []
  deriving DecidableEq, Repr

/-- Go `(*request).Unmarshal`: returns the request as updated through the
pointer, the buffer as left by the reads, and the error. -/
def request.Unmarshal (pk : request) (r : Buffer) : request × Buffer × Option QueryError :=
  match binaryReadByte r with
  | (.error err, r) => (pk, r, some err)
  | (.ok t, r) =>
    let pk := { pk with RequestType := t }
    match binaryReadInt32 r with
    | (.error err, r) => (pk, r, some err)
    | (.ok s, r) =>
      let pk := { pk with SequenceNumber := s }
      if pk.RequestType = queryTypeInformation then
        match binaryReadInt32 r with
        | (.error err, r) => (pk, r, some err)
        | (.ok n, r) =>
          let pk := { pk with ResponseNumber := n }
          let res := Buffer.Read r 4
          (pk, res.2, res.1.2)
      else if pk.RequestType ≠ queryTypeHandshake then
        (pk, r, some (.unknownRequestType pk.RequestType))
      else
        (pk, r, none)

/-- Go `(*response).Marshal`: the buffer after the writes, or `none` when
`make` panics on a negative length. -/
def response.Marshal (pk : response) (w : Buffer) : Option Buffer :=
  let w := binaryWriteByte w pk.ResponseType
  let w := binaryWriteInt32 w pk.SequenceNumber
  if pk.ResponseType = queryTypeHandshake then
    let v := Sprint pk.ResponseNumber
    if v.length ≠ 12 then
      match makeBytes (12 - (v.length : Int)) with
      | none => none
      | some pad => some (w ++ (v ++ pad))
    else
      some (w ++ v)
  else
    let w := w ++ splitNum
    let w := binaryWriteByte w 0x80
    let w := binaryWriteByte w 0
    let values : List Bytes :=
      pk.Information.foldl (fun values kv => (values ++ [kv.1]) ++ [kv.2]) []
    let values := values ++ [playerKey]
    let values := pk.Players.foldl (fun values player => values ++ [player]) values
    let values := values ++ [[0x00]]
    some (w ++ bytesJoin values [0x00])

/-! ## `token_generator.go` -/

/-- Go `tokenGenerator`. -/
structure tokenGenerator where
  token : Bytes := []
  deriving DecidableEq, Repr

/-- Go `(*tokenGenerator).generateToken`. `rnd` is what `rand.Read` did with
the 16-byte slice `b`: `some bytes` when it filled it, `none` when it returned
an error, on which the method panics. The method returns `string(b)` and
assigns nothing through `tg`, so the generator comes back as it was. -/
def tokenGenerator.generateToken (tg : tokenGenerator) (rnd : Option Bytes) :
    Option (tokenGenerator × Bytes) :=
  match rnd with
  | none => none
  | some b => some (tg, b)

/-- Go `getTokenString`: bytes 7 to 10 of the digest of `salt + ":" + token`,
read as a big-endian `uint32` and converted to `int`. -/
def getTokenString (H : Sha512) (token salt : Bytes) : Int :=
  let hashed := H.Sum (salt ++ [0x3a] ++ token)
  have h : hashed.length = 64 := H.Size _
  (BigEndian.Uint32 (hashed.get ⟨7, by omega⟩) (hashed.get ⟨8, by omega⟩)
    (hashed.get ⟨9, by omega⟩) (hashed.get ⟨10, by omega⟩) : Nat)

/-! ## `handler.go` -/

/-- Go `QueryHandler`, without its two mutexes. `queryInfo` lists the pairs of
the map in the order in which the `range` of one call visits them. Go chooses
that order anew at every `range`, so two calls on one Go handler are two values
of this type that may differ in the order of `queryInfo`. -/
structure QueryHandler where
  queryInfo : List (Bytes × Bytes)
  players : List Bytes
  tokenGen : tokenGenerator
  deriving DecidableEq, Repr

/-- State after a call of `HandlePacket`: the handler, the buffer and the
returned error. -/
structure HandleResult where
  handler : QueryHandler
  buf : Buffer
  err : Option QueryError
  deriving DecidableEq, Repr

/-- Go `New`: `none` when `generateToken` panics. The value `generateToken`
returns is dropped, as in the source. -/
def New (queryInfo : List (Bytes × Bytes)) (players : List Bytes) (rnd : Option Bytes) :
    Option QueryHandler :=
  let query : QueryHandler := { queryInfo := queryInfo, tokenGen := {}, players := players }
  match query.tokenGen.generateToken rnd with
  | none => none
  | some (tg, _) => some { query with tokenGen := tg }

/-- Go `(*QueryHandler).SetQueryInfo`. -/
def QueryHandler.SetQueryInfo (q : QueryHandler) (queryInfo : List (Bytes × Bytes)) :
    QueryHandler :=
  { q with queryInfo := queryInfo }

/-- Go `(*QueryHandler).SetPlayers`. -/
def QueryHandler.SetPlayers (q : QueryHandler) (players : List Bytes) : QueryHandler :=
  { q with players := players }

/-- Response that `HandlePacket` builds for a decoded request, or the error it
returns instead: the `switch` statement of the source. When no case matches
the response stays the zero value. -/
def QueryHandler.buildResponse (H : Sha512) (q : QueryHandler) (pk : request) (addr : Addr) :
    Except QueryError response :=
  if pk.RequestType = queryTypeHandshake then
    .ok { ResponseType := queryTypeHandshake, SequenceNumber := pk.SequenceNumber,
          ResponseNumber := int32 (getTokenString H q.tokenGen.token addr.String) }
  else if pk.RequestType = queryTypeInformation then
    if pk.ResponseNumber ≠ int32 (getTokenString H q.tokenGen.token addr.String) then
      .error .tokenMismatch
    else
      .ok { ResponseType := queryTypeInformation, SequenceNumber := pk.SequenceNumber,
            ResponseNumber := pk.ResponseNumber, Information := q.queryInfo,
            Players := q.players }
  else
    .ok {}

/-- Go `(*QueryHandler).HandlePacket`: `none` when the call panics, otherwise
the handler, the buffer and the error after the call. -/
def QueryHandler.HandlePacket (H : Sha512) (q : QueryHandler) (b : Buffer) (addr : Addr) :
    Option HandleResult :=
  match request.Unmarshal {} b with
  | (_, b, some err) => some { handler := q, buf := b, err := some err }
  | (pk, b, none) =>
    match q.buildResponse H pk addr with
    | .error err => some { handler := q, buf := b, err := some err }
    | .ok resp =>
      match resp.Marshal b with
      | none => none
      | some b => some { handler := q, buf := b, err := none }

/-! ## Values used to instantiate the theorems -/

/-- A stand-in for the digest function, used only to evaluate the definitions
on concrete inputs: the first 64 bytes of the message followed by zero bytes.
It is not SHA-512. -/
def sampleDigest : Sha512 where
  Sum m := (m ++ List.replicate 64 0).take 64
  Size m := by simp

/-- A handler with one info pair (`hostname`, `Test`), the players `Alice` and
`Bob`, and a sample secret. -/
def sampleHandler : QueryHandler where
  queryInfo := [([0x68, 0x6f, 0x73, 0x74, 0x6e, 0x61, 0x6d, 0x65], [0x54, 0x65, 0x73, 0x74])]
  players := [[0x41, 0x6c, 0x69, 0x63, 0x65], [0x42, 0x6f, 0x62]]
  tokenGen := { token := [0x73, 0x65, 0x63, 0x72, 0x65, 0x74] }

/-- The address `1.2.3.4:5` on network `udp`. -/
def sampleAddr : Addr where
  Network := [0x75, 0x64, 0x70]
  String := [0x31, 0x2e, 0x32, 0x2e, 0x33, 0x2e, 0x34, 0x3a, 0x35]

/-- A handler whose info map is `{"a": "1", "b": "2"}`, with no players and the
empty secret, in a call whose `range` over the map visits `a` first. -/
def twoPairHandlerAB : QueryHandler where
  queryInfo := [([0x61], [0x31]), ([0x62], [0x32])]
  players := []
  tokenGen := { token := [] }

/-- The same handler as `twoPairHandlerAB` in a call whose `range` over the map
visits `b` first. -/
def twoPairHandlerBA : QueryHandler where
  queryInfo := [([0x62], [0x32]), ([0x61], [0x31])]
  players := []
  tokenGen := { token := [] }

/-! ## The client's reading of a handshake response

The package has no decoder for its own responses. These definitions follow the
specification's words for what a client does with the token field: it takes the
bytes before the zero padding and reads them as a decimal integer. -/

/-- Value of an ASCII decimal digit, `none` for any other byte. -/
def clientDigitValue (b : UInt8) : Option Nat :=
  if 48 ≤ b.toNat ∧ b.toNat ≤ 57 then some (b.toNat - 48) else none

/-- Decimal reading of a digit string continuing from the value `acc`; `none`
when a byte is not a digit. -/
def clientParseDigits : Nat → Bytes → Option Nat
  | acc, [] => some acc
  | acc, b :: bs =>
    match clientDigitValue b with
    | none => none
    | some d => clientParseDigits (acc * 10 + d) bs

/-- Decimal reading of a signed integer: an optional minus sign, then at least
one digit and nothing else. -/
def clientParseDecimal (s : Bytes) : Option Int :=
  match s with
  | [] => none
  | b :: bs =>
    if b = 45 then
      match bs with
      | [] => none
      | _ :: _ =>
        match clientParseDigits 0 bs with
        | none => none
        | some v => some (-(v : Int))
    else
      match clientParseDigits 0 (b :: bs) with
      | none => none
      | some v => some (v : Int)

/-- Token field of a handshake response: its bytes 5 to 16. -/
def clientTokenField (resp : Bytes) : Bytes :=
  (resp.drop 5).take 12

/-- Bytes of `s` up to its first zero byte. -/
def clientUntilZero (s : Bytes) : Bytes :=
  s.takeWhile (fun b => b ≠ 0)

/-- Bytes of `s` without its trailing zero bytes. -/
def clientDropTrailingZeros (s : Bytes) : Bytes :=
  (s.reverse.dropWhile (fun b => b = 0)).reverse

/-! ## Bytes and 32-bit integers -/

theorem toNat_ofNat_byte (n : Nat) : (UInt8.ofNat n).toNat = n % 256 := rfl

theorem ofNat_toNat_byte (b : UInt8) : UInt8.ofNat b.toNat = b := by
  apply UInt8.ext
  rw [toNat_ofNat_byte]
  have hb := b.toNat_lt
  omega

theorem Uint32_lt (b0 b1 b2 b3 : UInt8) : BigEndian.Uint32 b0 b1 b2 b3 < 4294967296 := by
  have h0 := b0.toNat_lt
  have h1 := b1.toNat_lt
  have h2 := b2.toNat_lt
  have h3 := b3.toNat_lt
  unfold BigEndian.Uint32
  omega

theorem PutUint32_Uint32 (b0 b1 b2 b3 : UInt8) :
    BigEndian.PutUint32 (BigEndian.Uint32 b0 b1 b2 b3) = [b0, b1, b2, b3] := by
  have h0 := b0.toNat_lt
  have h1 := b1.toNat_lt
  have h2 := b2.toNat_lt
  have h3 := b3.toNat_lt
  have e0 : BigEndian.Uint32 b0 b1 b2 b3 / 16777216 % 256 = b0.toNat := by
    unfold BigEndian.Uint32; omega
  have e1 : BigEndian.Uint32 b0 b1 b2 b3 / 65536 % 256 = b1.toNat := by
    unfold BigEndian.Uint32; omega
  have e2 : BigEndian.Uint32 b0 b1 b2 b3 / 256 % 256 = b2.toNat := by
    unfold BigEndian.Uint32; omega
  have e3 : BigEndian.Uint32 b0 b1 b2 b3 % 256 = b3.toNat := by
    unfold BigEndian.Uint32; omega
  simp only [BigEndian.PutUint32, e0, e1, e2, e3, ofNat_toNat_byte]

theorem uint32_int32 (x : Int) : uint32 (int32 x) = uint32 x := by
  unfold uint32 int32
  congr 1
  omega

theorem uint32_natCast (u : Nat) (h : u < 4294967296) : uint32 (u : Int) = u := by
  unfold uint32
  omega

theorem int32_range (x : Int) : -2147483648 ≤ int32 x ∧ int32 x < 2147483648 := by
  unfold int32
  omega

theorem int32_of_range (x : Int) (h1 : -2147483648 ≤ x) (h2 : x < 2147483648) : int32 x = x := by
  unfold int32
  omega

theorem int32_natCast (u : Nat) (h : u < 4294967296) :
    int32 (u : Int) = if u < 2147483648 then (u : Int) else (u : Int) - 4294967296 := by
  unfold int32
  split <;> omega

theorem binaryWriteInt32_read (w : Buffer) (b0 b1 b2 b3 : UInt8) :
    binaryWriteInt32 w (int32 (BigEndian.Uint32 b0 b1 b2 b3)) = w ++ [b0, b1, b2, b3] := by
  unfold binaryWriteInt32
  rw [uint32_int32, uint32_natCast _ (Uint32_lt b0 b1 b2 b3), PutUint32_Uint32]

theorem PutUint32_length (u : Nat) : (BigEndian.PutUint32 u).length = 4 := rfl

/-! ## Decimal formatting -/

theorem decimalDigits_length (fuel : Nat) :
    ∀ (u : Nat) (acc : Bytes) (k : Nat), u < fuel → u < 10 ^ (k + 1) →
      (decimalDigits fuel u acc).length ≤ k + 1 + acc.length := by
  induction fuel with
  | zero => intro u acc k h; omega
  | succ fuel ih =>
    intro u acc k hf hk
    unfold decimalDigits
    split
    · simp; omega
    · rename_i hu
      cases k with
      | zero => simp at hk; omega
      | succ k =>
        have hk2 : u / 10 < 10 ^ (k + 1) := by
          apply Nat.div_lt_of_lt_mul
          rw [pow_succ] at hk
          omega
        have := ih (u / 10) (UInt8.ofNat (48 + u % 10) :: acc) k (by omega) hk2
        simp at this
        omega

theorem Sprint_length_le (n : Int) (h1 : -2147483648 ≤ n) (h2 : n < 2147483648) :
    (Sprint n).length ≤ 11 := by
  have hd := decimalDigits_length (n.natAbs + 1) n.natAbs [] 9 (by omega) (by norm_num; omega)
  unfold Sprint
  split
  · simp at hd ⊢; omega
  · simp at hd ⊢; omega
/-! ## Encoding a handshake response, decoding a request -/

theorem Marshal_handshake (S n : Int) (info : List (Bytes × Bytes)) (players : List Bytes)
    (w : Buffer) (hn : (Sprint n).length ≤ 11) :
    response.Marshal { ResponseType := queryTypeHandshake, SequenceNumber := S,
                       ResponseNumber := n, Information := info, Players := players } w =
      some (w ++ [0x09] ++ BigEndian.PutUint32 (uint32 S) ++
        (Sprint n ++ List.replicate (12 - (Sprint n).length) 0)) := by
  have hne : (Sprint n).length ≠ 12 := by omega
  have hpad : makeBytes (12 - ((Sprint n).length : Int)) =
      some (List.replicate (12 - (Sprint n).length) 0) := by
    unfold makeBytes
    rw [if_neg (by omega)]
    congr 2
    omega
  simp only [response.Marshal, if_true, hne, ne_eq, not_false_eq_true, hpad,
    binaryWriteByte, binaryWriteInt32, queryTypeHandshake]
theorem handshake_ne_information : ¬ ((9 : UInt8) = 0) := by decide

theorem Unmarshal_handshake (pk : request) (s0 s1 s2 s3 : UInt8) (rest : Buffer) :
    request.Unmarshal pk (0x09 :: s0 :: s1 :: s2 :: s3 :: rest) =
      ({ pk with RequestType := 0x09,
                 SequenceNumber := int32 (BigEndian.Uint32 s0 s1 s2 s3) }, rest, none) := by
  simp only [request.Unmarshal, binaryReadByte, binaryReadInt32, queryTypeInformation,
    queryTypeHandshake, handshake_ne_information, ne_eq, not_true_eq_false, if_false]

theorem Unmarshal_information (pk : request) (s0 s1 s2 s3 c0 c1 c2 c3 t0 t1 t2 t3 : UInt8)
    (rest : Buffer) :
    request.Unmarshal pk
        (0x00 :: s0 :: s1 :: s2 :: s3 :: c0 :: c1 :: c2 :: c3 :: t0 :: t1 :: t2 :: t3 :: rest) =
      ({ pk with RequestType := 0x00,
                 SequenceNumber := int32 (BigEndian.Uint32 s0 s1 s2 s3),
                 ResponseNumber := int32 (BigEndian.Uint32 c0 c1 c2 c3) }, rest, none) := by
  simp only [request.Unmarshal, binaryReadByte, binaryReadInt32, queryTypeInformation,
    if_true, Buffer.Read, List.take, List.drop]

theorem token_Sprint_length (H : Sha512) (token salt : Bytes) :
    (Sprint (int32 (getTokenString H token salt))).length ≤ 11 :=
  Sprint_length_le _ (int32_range _).1 (int32_range _).2


/-! ## `HandlePacket` in terms of its three steps -/

theorem HandlePacket_unmarshal_error (H : Sha512) (q : QueryHandler) (b r : Buffer) (A : Addr)
    (pk : request) (e : QueryError) (hu : request.Unmarshal {} b = (pk, r, some e)) :
    q.HandlePacket H b A = some { handler := q, buf := r, err := some e } := by
  unfold QueryHandler.HandlePacket
  rw [hu]

theorem HandlePacket_build_error (H : Sha512) (q : QueryHandler) (b r : Buffer) (A : Addr)
    (pk : request) (e : QueryError) (hu : request.Unmarshal {} b = (pk, r, none))
    (hb : q.buildResponse H pk A = .error e) :
    q.HandlePacket H b A = some { handler := q, buf := r, err := some e } := by
  unfold QueryHandler.HandlePacket
  rw [hu]
  simp only [hb]

theorem HandlePacket_marshal (H : Sha512) (q : QueryHandler) (b r out : Buffer) (A : Addr)
    (pk : request) (resp : response) (hu : request.Unmarshal {} b = (pk, r, none))
    (hb : q.buildResponse H pk A = .ok resp) (hm : resp.Marshal r = some out) :
    q.HandlePacket H b A = some { handler := q, buf := out, err := none } := by
  unfold QueryHandler.HandlePacket
  rw [hu]
  simp only [hb, hm]

theorem buildResponse_handshake (H : Sha512) (q : QueryHandler) (A : Addr) (S n t : Int) :
    q.buildResponse H { RequestType := 0x09, SequenceNumber := S, ResponseNumber := n,
                        Token := t } A =
      .ok { ResponseType := queryTypeHandshake, SequenceNumber := S,
            ResponseNumber := int32 (getTokenString H q.tokenGen.token A.String) } := by
  simp only [QueryHandler.buildResponse, queryTypeHandshake, if_true]

theorem HandlePacket_handshake (H : Sha512) (q : QueryHandler) (A : Addr)
    (s0 s1 s2 s3 : UInt8) (rest : Buffer) :
    q.HandlePacket H (0x09 :: s0 :: s1 :: s2 :: s3 :: rest) A =
      some { handler := q, err := none,
             buf := rest ++ [0x09] ++ [s0, s1, s2, s3] ++
               (Sprint (int32 (getTokenString H q.tokenGen.token A.String)) ++
                 List.replicate
                   (12 - (Sprint (int32 (getTokenString H q.tokenGen.token A.String))).length)
                   0) } := by
  have hm := Marshal_handshake (int32 (BigEndian.Uint32 s0 s1 s2 s3))
    (int32 (getTokenString H q.tokenGen.token A.String)) [] [] rest
    (token_Sprint_length H _ _)
  rw [uint32_int32, uint32_natCast _ (Uint32_lt s0 s1 s2 s3), PutUint32_Uint32] at hm
  exact HandlePacket_marshal H q _ rest _ A _ _ (Unmarshal_handshake {} s0 s1 s2 s3 rest)
    (buildResponse_handshake H q A _ _ _) hm

/-! ## Joining segments -/

theorem foldl_join_step (sep : Bytes) (rest : List Bytes) :
    ∀ acc : Bytes, rest.foldl (fun b v => b ++ sep ++ v) acc =
      acc ++ (rest.map (fun v => sep ++ v)).flatten := by
  induction rest with
  | nil => intro acc; simp
  | cons v rest ih =>
    intro acc
    rw [List.foldl_cons, ih, List.map_cons, List.flatten_cons]
    simp only [List.append_assoc]

theorem intercalate_cons (sep x : Bytes) (rest : List Bytes) :
    List.intercalate sep (x :: rest) = x ++ (rest.map (fun v => sep ++ v)).flatten := by
  induction rest generalizing x with
  | nil => simp [List.intercalate]
  | cons y rest ih =>
    have h := ih y
    simp only [List.intercalate, List.intersperse, List.flatten, List.map] at h ⊢
    rw [h, List.append_assoc]

theorem bytesJoin_eq_intercalate (s : List Bytes) (sep : Bytes) :
    bytesJoin s sep = List.intercalate sep s := by
  cases s with
  | nil => simp [bytesJoin, List.intercalate]
  | cons s0 rest => rw [intercalate_cons]; simp only [bytesJoin, foldl_join_step]

theorem intercalate_append_singleton (sep last : Bytes) (xs : List Bytes) :
    List.intercalate sep (xs ++ [last]) = (xs.map (fun x => x ++ sep)).flatten ++ last := by
  induction xs with
  | nil => simp [List.intercalate]
  | cons x xs ih =>
    rw [List.cons_append, intercalate_cons]
    cases xs with
    | nil => simp
    | cons y ys =>
      rw [List.cons_append, intercalate_cons] at ih
      simp only [List.map_cons, List.flatten_cons, List.cons_append, List.append_assoc] at ih ⊢
      rw [ih]

theorem foldl_pairs (info : List (Bytes × Bytes)) :
    ∀ acc : List Bytes, info.foldl (fun values kv => (values ++ [kv.1]) ++ [kv.2]) acc =
      acc ++ (info.map (fun kv => [kv.1, kv.2])).flatten := by
  induction info with
  | nil => intro acc; simp
  | cons kv info ih =>
    intro acc
    rw [List.foldl_cons, ih, List.map_cons, List.flatten_cons]
    simp only [List.append_assoc, List.cons_append, List.nil_append]

theorem foldl_players (players : List Bytes) :
    ∀ acc : List Bytes, players.foldl (fun values player => values ++ [player]) acc =
      acc ++ players := by
  induction players with
  | nil => intro acc; simp
  | cons p players ih => intro acc; simp [ih, List.append_assoc]

/-- Segments that `Marshal` joins for an information response. -/
theorem segments_eq (info : List (Bytes × Bytes)) (players : List Bytes) :
    (players.foldl (fun values player => values ++ [player])
      (info.foldl (fun values kv => (values ++ [kv.1]) ++ [kv.2]) [] ++ [playerKey])) ++ [[0x00]] =
    (info.map (fun kv => [kv.1, kv.2])).flatten ++ [playerKey] ++ players ++ [[0x00]] := by
  rw [foldl_players, foldl_pairs, List.nil_append]

/-! ## Encoding an information response -/

theorem information_ne_handshake : ¬ ((0 : UInt8) = 9) := by decide

theorem Marshal_information (S n : Int) (info : List (Bytes × Bytes)) (players : List Bytes)
    (w : Buffer) :
    response.Marshal { ResponseType := queryTypeInformation, SequenceNumber := S,
                       ResponseNumber := n, Information := info, Players := players } w =
      some (w ++ [0x00] ++ BigEndian.PutUint32 (uint32 S) ++ splitNum ++ [0x80] ++ [0x00] ++
        bytesJoin ((info.map (fun kv => [kv.1, kv.2])).flatten ++ [playerKey] ++ players ++
          [[0x00]]) [0x00]) := by
  simp only [response.Marshal, queryTypeInformation, queryTypeHandshake,
    information_ne_handshake, if_false, binaryWriteByte, binaryWriteInt32, segments_eq]

theorem Marshal_append (pk : response) (w : Buffer) :
    pk.Marshal w = (pk.Marshal []).map (fun enc => w ++ enc) := by
  unfold response.Marshal
  simp only [binaryWriteByte, binaryWriteInt32, List.nil_append]
  split
  · split
    · cases makeBytes (12 - ((Sprint pk.ResponseNumber).length : Int)) with
      | none => rfl
      | some pad => simp only [Option.map_some', List.append_assoc]
    · simp only [Option.map_some', List.append_assoc]
  · simp only [Option.map_some', List.append_assoc]

theorem buildResponse_information (H : Sha512) (q : QueryHandler) (A : Addr) (S n t : Int) :
    q.buildResponse H { RequestType := 0x00, SequenceNumber := S, ResponseNumber := n,
                        Token := t } A =
      if n ≠ int32 (getTokenString H q.tokenGen.token A.String) then .error .tokenMismatch
      else .ok { ResponseType := queryTypeInformation, SequenceNumber := S,
                 ResponseNumber := n, Information := q.queryInfo, Players := q.players } := by
  simp only [QueryHandler.buildResponse, queryTypeHandshake, queryTypeInformation,
    information_ne_handshake, if_false, if_true]

theorem HandlePacket_information_mismatch (H : Sha512) (q : QueryHandler) (A : Addr)
    (s0 s1 s2 s3 c0 c1 c2 c3 t0 t1 t2 t3 : UInt8) (rest : Buffer)
    (h : int32 (BigEndian.Uint32 c0 c1 c2 c3) ≠
      int32 (getTokenString H q.tokenGen.token A.String)) :
    q.HandlePacket H
        (0x00 :: s0 :: s1 :: s2 :: s3 :: c0 :: c1 :: c2 :: c3 :: t0 :: t1 :: t2 :: t3 :: rest) A =
      some { handler := q, buf := rest, err := some .tokenMismatch } := by
  have hb := buildResponse_information H q A (int32 (BigEndian.Uint32 s0 s1 s2 s3))
    (int32 (BigEndian.Uint32 c0 c1 c2 c3)) 0
  rw [if_pos h] at hb
  exact HandlePacket_build_error H q _ rest A _ _
    (Unmarshal_information {} s0 s1 s2 s3 c0 c1 c2 c3 t0 t1 t2 t3 rest) hb

theorem HandlePacket_information_match (H : Sha512) (q : QueryHandler) (A : Addr)
    (s0 s1 s2 s3 c0 c1 c2 c3 t0 t1 t2 t3 : UInt8) (rest : Buffer)
    (h : int32 (BigEndian.Uint32 c0 c1 c2 c3) =
      int32 (getTokenString H q.tokenGen.token A.String)) :
    q.HandlePacket H
        (0x00 :: s0 :: s1 :: s2 :: s3 :: c0 :: c1 :: c2 :: c3 :: t0 :: t1 :: t2 :: t3 :: rest) A =
      some { handler := q, err := none,
             buf := rest ++ [0x00] ++ [s0, s1, s2, s3] ++ splitNum ++ [0x80] ++ [0x00] ++
               bytesJoin ((q.queryInfo.map (fun kv => [kv.1, kv.2])).flatten ++ [playerKey] ++
                 q.players ++ [[0x00]]) [0x00] } := by
  have hb := buildResponse_information H q A (int32 (BigEndian.Uint32 s0 s1 s2 s3))
    (int32 (BigEndian.Uint32 c0 c1 c2 c3)) 0
  rw [if_neg (not_not.mpr h)] at hb
  have hm := Marshal_information (int32 (BigEndian.Uint32 s0 s1 s2 s3))
    (int32 (BigEndian.Uint32 c0 c1 c2 c3)) q.queryInfo q.players rest
  rw [uint32_int32, uint32_natCast _ (Uint32_lt s0 s1 s2 s3), PutUint32_Uint32] at hm
  exact HandlePacket_marshal H q _ rest _ A _ _
    (Unmarshal_information {} s0 s1 s2 s3 c0 c1 c2 c3 t0 t1 t2 t3 rest) hb hm

theorem Unmarshal_truncated (pk : request) (buf : Buffer) (h : buf.length < 5) :
    (request.Unmarshal pk buf).2.2 = some .EOF ∨
      (request.Unmarshal pk buf).2.2 = some .ErrUnexpectedEOF := by
  rcases buf with _ | ⟨a, _ | ⟨b, _ | ⟨c, _ | ⟨d, _ | ⟨e, rest⟩⟩⟩⟩⟩
  · left; rfl
  · left; rfl
  · right; rfl
  · right; rfl
  · right; rfl
  · simp only [List.length_cons] at h
    omega

/-! ## Unknown request kinds -/

theorem Unmarshal_unknown (pk : request) (t s0 s1 s2 s3 : UInt8) (rest : Buffer)
    (h9 : t ≠ 0x09) (h0 : t ≠ 0x00) :
    request.Unmarshal pk (t :: s0 :: s1 :: s2 :: s3 :: rest) =
      ({ pk with RequestType := t,
                 SequenceNumber := int32 (BigEndian.Uint32 s0 s1 s2 s3) }, rest,
        some (.unknownRequestType t)) := by
  simp only [request.Unmarshal, binaryReadByte, binaryReadInt32, queryTypeInformation,
    queryTypeHandshake, h0, h9, ne_eq, not_false_eq_true, if_false, if_true]

theorem Unmarshal_short (pk : request) (t : UInt8) (rest : Buffer) (h : rest.length < 4) :
    request.Unmarshal pk (t :: rest) = ({ pk with RequestType := t }, [], some .EOF) ∨
      request.Unmarshal pk (t :: rest) =
        ({ pk with RequestType := t }, [], some .ErrUnexpectedEOF) := by
  rcases rest with _ | ⟨a, _ | ⟨b, _ | ⟨c, _ | ⟨d, rest⟩⟩⟩⟩
  · left; rfl
  · right; rfl
  · right; rfl
  · right; rfl
  · simp only [List.length_cons] at h
    omega

/-! ## What a successful decode consumes -/

theorem Unmarshal_information_tail (pk : request) (s0 s1 s2 s3 c0 c1 c2 c3 x : UInt8)
    (xs : Buffer) :
    request.Unmarshal pk (0x00 :: s0 :: s1 :: s2 :: s3 :: c0 :: c1 :: c2 :: c3 :: x :: xs) =
      ({ pk with RequestType := 0x00,
                 SequenceNumber := int32 (BigEndian.Uint32 s0 s1 s2 s3),
                 ResponseNumber := int32 (BigEndian.Uint32 c0 c1 c2 c3) },
        (x :: xs).drop 4, none) := by
  simp only [request.Unmarshal, binaryReadByte, binaryReadInt32, queryTypeInformation,
    if_true, Buffer.Read]

theorem Unmarshal_information_error (pk : request) (s0 s1 s2 s3 : UInt8) (r : Buffer)
    (h : r.length < 5) :
    (request.Unmarshal pk (0x00 :: s0 :: s1 :: s2 :: s3 :: r)).2.2 ≠ none := by
  rcases r with _ | ⟨c0, _ | ⟨c1, _ | ⟨c2, _ | ⟨c3, _ | ⟨x, xs⟩⟩⟩⟩⟩
  · simp only [request.Unmarshal, binaryReadByte, binaryReadInt32, queryTypeInformation,
      if_true, ne_eq, reduceCtorEq, not_false_eq_true]
  · simp only [request.Unmarshal, binaryReadByte, binaryReadInt32, queryTypeInformation,
      if_true, ne_eq, reduceCtorEq, not_false_eq_true]
  · simp only [request.Unmarshal, binaryReadByte, binaryReadInt32, queryTypeInformation,
      if_true, ne_eq, reduceCtorEq, not_false_eq_true]
  · simp only [request.Unmarshal, binaryReadByte, binaryReadInt32, queryTypeInformation,
      if_true, ne_eq, reduceCtorEq, not_false_eq_true]
  · simp only [request.Unmarshal, binaryReadByte, binaryReadInt32, queryTypeInformation,
      if_true, Buffer.Read, ne_eq, reduceCtorEq, not_false_eq_true, OfNat.ofNat_ne_zero,
      if_false]
  · simp only [List.length_cons] at h
    omega

theorem Unmarshal_success (pk0 pk : request) (b rest : Buffer)
    (h : request.Unmarshal pk0 b = (pk, rest, none)) :
    (pk.RequestType = queryTypeHandshake ∧ rest = b.drop 5) ∨
      (pk.RequestType = queryTypeInformation ∧ rest = b.drop 13) := by
  have herr : (request.Unmarshal pk0 b).2.2 = none := by rw [h]
  by_cases hb : b.length < 5
  · rcases Unmarshal_truncated pk0 b hb with he | he
    · rw [he] at herr; cases herr
    · rw [he] at herr; cases herr
  · rcases b with _ | ⟨t, _ | ⟨s0, _ | ⟨s1, _ | ⟨s2, _ | ⟨s3, r⟩⟩⟩⟩⟩
    · exact absurd (by simp only [List.length_nil]; omega) hb
    · exact absurd (by simp only [List.length_cons, List.length_nil]; omega) hb
    · exact absurd (by simp only [List.length_cons, List.length_nil]; omega) hb
    · exact absurd (by simp only [List.length_cons, List.length_nil]; omega) hb
    · exact absurd (by simp only [List.length_cons, List.length_nil]; omega) hb
    · by_cases h9 : t = 0x09
      · subst h9
        rw [Unmarshal_handshake] at h
        simp only [Prod.mk.injEq] at h
        left
        exact ⟨by rw [← h.1]; rfl, by rw [← h.2.1]; rfl⟩
      · by_cases h0 : t = 0x00
        · subst h0
          by_cases hr : r.length < 5
          · exact absurd herr (Unmarshal_information_error pk0 s0 s1 s2 s3 r hr)
          · rcases r with _ | ⟨c0, _ | ⟨c1, _ | ⟨c2, _ | ⟨c3, _ | ⟨x, xs⟩⟩⟩⟩⟩
            · exact absurd (by simp only [List.length_nil]; omega) hr
            · exact absurd (by simp only [List.length_cons, List.length_nil]; omega) hr
            · exact absurd (by simp only [List.length_cons, List.length_nil]; omega) hr
            · exact absurd (by simp only [List.length_cons, List.length_nil]; omega) hr
            · exact absurd (by simp only [List.length_cons, List.length_nil]; omega) hr
            · rw [Unmarshal_information_tail] at h
              simp only [Prod.mk.injEq] at h
              right
              exact ⟨by rw [← h.1]; rfl, by rw [← h.2.1]; rfl⟩
        · rw [Unmarshal_unknown pk0 t s0 s1 s2 s3 r h9 h0] at herr
          cases herr

theorem HandlePacket_marshal_none (H : Sha512) (q : QueryHandler) (b r : Buffer) (A : Addr)
    (pk : request) (resp : response) (hu : request.Unmarshal {} b = (pk, r, none))
    (hb : q.buildResponse H pk A = .ok resp) (hm : resp.Marshal r = none) :
    q.HandlePacket H b A = none := by
  unfold QueryHandler.HandlePacket
  rw [hu]
  simp only [hb, hm]

/-! ## A token written big-endian and read back -/

theorem Uint32_PutUint32 (u : Nat) :
    BigEndian.Uint32 (UInt8.ofNat (u / 16777216 % 256)) (UInt8.ofNat (u / 65536 % 256))
      (UInt8.ofNat (u / 256 % 256)) (UInt8.ofNat (u % 256)) = u % 4294967296 := by
  simp only [BigEndian.Uint32, toNat_ofNat_byte]
  omega

theorem int32_uint32 (x : Int) : int32 ((uint32 x : Nat) : Int) = int32 x := by
  unfold int32 uint32
  omega

theorem int32_read_back (x : Int) :
    int32 (BigEndian.Uint32 (UInt8.ofNat (uint32 x / 16777216 % 256))
      (UInt8.ofNat (uint32 x / 65536 % 256)) (UInt8.ofNat (uint32 x / 256 % 256))
      (UInt8.ofNat (uint32 x % 256)) : Nat) = int32 x := by
  rw [Uint32_PutUint32]
  unfold int32 uint32
  omega

theorem HandlePacket_information_tail (H : Sha512) (q : QueryHandler) (A : Addr)
    (s0 s1 s2 s3 c0 c1 c2 c3 x : UInt8) (xs : Buffer)
    (h : int32 (BigEndian.Uint32 c0 c1 c2 c3) =
      int32 (getTokenString H q.tokenGen.token A.String)) :
    q.HandlePacket H (0x00 :: s0 :: s1 :: s2 :: s3 :: c0 :: c1 :: c2 :: c3 :: x :: xs) A =
      some { handler := q, err := none,
             buf := (x :: xs).drop 4 ++ [0x00] ++ [s0, s1, s2, s3] ++ splitNum ++ [0x80] ++
               [0x00] ++
               bytesJoin ((q.queryInfo.map (fun kv => [kv.1, kv.2])).flatten ++ [playerKey] ++
                 q.players ++ [[0x00]]) [0x00] } := by
  have hb := buildResponse_information H q A (int32 (BigEndian.Uint32 s0 s1 s2 s3))
    (int32 (BigEndian.Uint32 c0 c1 c2 c3)) 0
  rw [if_neg (not_not.mpr h)] at hb
  have hm := Marshal_information (int32 (BigEndian.Uint32 s0 s1 s2 s3))
    (int32 (BigEndian.Uint32 c0 c1 c2 c3)) q.queryInfo q.players ((x :: xs).drop 4)
  rw [uint32_int32, uint32_natCast _ (Uint32_lt s0 s1 s2 s3), PutUint32_Uint32] at hm
  exact HandlePacket_marshal H q _ _ _ A _ _
    (Unmarshal_information_tail {} s0 s1 s2 s3 c0 c1 c2 c3 x xs) hb hm

/-! ## Decimal text read back -/

theorem decimalDigits_append (fuel : Nat) :
    ∀ (u : Nat) (acc : Bytes), decimalDigits fuel u acc = decimalDigits fuel u [] ++ acc := by
  induction fuel with
  | zero => intro u acc; rfl
  | succ fuel ih =>
    intro u acc
    unfold decimalDigits
    split
    · rfl
    · rw [ih (u / 10) (UInt8.ofNat (48 + u % 10) :: acc),
        ih (u / 10) [UInt8.ofNat (48 + u % 10)], List.append_assoc]
      rfl

theorem decimalDigits_digits (fuel : Nat) :
    ∀ (u : Nat) (acc : Bytes), (∀ b ∈ acc, 48 ≤ b.toNat ∧ b.toNat ≤ 57) →
      ∀ b ∈ decimalDigits fuel u acc, 48 ≤ b.toNat ∧ b.toNat ≤ 57 := by
  induction fuel with
  | zero => intro u acc hacc; exact hacc
  | succ fuel ih =>
    intro u acc hacc
    unfold decimalDigits
    split
    · rename_i hu
      intro b hb
      rcases List.mem_cons.mp hb with rfl | hb
      · rw [toNat_ofNat_byte]; omega
      · exact hacc b hb
    · apply ih
      intro b hb
      rcases List.mem_cons.mp hb with rfl | hb
      · rw [toNat_ofNat_byte]; omega
      · exact hacc b hb

theorem decimalDigits_ne_nil (fuel u : Nat) : decimalDigits (fuel + 1) u [] ≠ [] := by
  unfold decimalDigits
  split
  · exact List.cons_ne_nil _ _
  · rw [decimalDigits_append]
    exact List.append_ne_nil_of_right_ne_nil _ (List.cons_ne_nil _ _)

theorem parseDigits_append (xs ys : Bytes) :
    ∀ acc : Nat, clientParseDigits acc (xs ++ ys) =
      (clientParseDigits acc xs).bind (fun v => clientParseDigits v ys) := by
  induction xs with
  | nil => intro acc; rfl
  | cons x xs ih =>
    intro acc
    simp only [List.cons_append, clientParseDigits]
    cases clientDigitValue x with
    | none => rfl
    | some d => exact ih _

theorem parseDigits_decimalDigits (fuel : Nat) :
    ∀ u : Nat, u < fuel → clientParseDigits 0 (decimalDigits fuel u []) = some u := by
  induction fuel with
  | zero => intro u h; omega
  | succ fuel ih =>
    intro u hfuel
    unfold decimalDigits
    split
    · rename_i hu
      have hd : clientDigitValue (UInt8.ofNat (48 + u)) = some u := by
        unfold clientDigitValue
        rw [toNat_ofNat_byte, if_pos (by omega)]
        congr 1
        omega
      simp only [clientParseDigits, hd, Nat.zero_mul, Nat.zero_add]
    · rename_i hu
      have hd : clientDigitValue (UInt8.ofNat (48 + u % 10)) = some (u % 10) := by
        unfold clientDigitValue
        rw [toNat_ofNat_byte, if_pos (by omega)]
        congr 1
        omega
      rw [decimalDigits_append, parseDigits_append, ih (u / 10) (by omega)]
      simp only [Option.some_bind, clientParseDigits, hd]
      congr 1
      omega

theorem parseDecimal_Sprint (n : Int) : clientParseDecimal (Sprint n) = some n := by
  unfold Sprint
  split
  · rename_i hn
    have hne := decimalDigits_ne_nil n.natAbs n.natAbs
    have hp := parseDigits_decimalDigits (n.natAbs + 1) n.natAbs (by omega)
    cases hds : decimalDigits (n.natAbs + 1) n.natAbs [] with
    | nil => exact absurd hds hne
    | cons d ds =>
      rw [hds] at hp
      simp only [clientParseDecimal, if_true, hp]
      congr 1
      rw [Int.ofNat_natAbs_of_nonpos (Int.le_of_lt hn), Int.neg_neg]
  · rename_i hn
    have hne := decimalDigits_ne_nil n.natAbs n.natAbs
    have hp := parseDigits_decimalDigits (n.natAbs + 1) n.natAbs (by omega)
    have hdig := decimalDigits_digits (n.natAbs + 1) n.natAbs [] (fun b hb => by cases hb)
    cases hds : decimalDigits (n.natAbs + 1) n.natAbs [] with
    | nil => exact absurd hds hne
    | cons d ds =>
      rw [hds] at hp hdig
      have hd : ¬ (d = 45) := by
        intro h45
        have := hdig d (List.mem_cons_self _ _)
        rw [h45] at this
        exact absurd this.1 (by decide)
      simp only [clientParseDecimal, hd, if_false, hp]
      congr 1
      exact Int.natAbs_of_nonneg (Int.not_lt.mp hn)

theorem Sprint_ne_zero (n : Int) : ∀ b ∈ Sprint n, b ≠ 0 := by
  have hdig := decimalDigits_digits (n.natAbs + 1) n.natAbs [] (fun b hb => by cases hb)
  have hz : ∀ b : UInt8, 48 ≤ b.toNat ∧ b.toNat ≤ 57 → b ≠ 0 := by
    intro b hb h0
    rw [h0] at hb
    exact absurd hb.1 (by decide)
  unfold Sprint
  split
  · intro b hb
    rcases List.mem_cons.mp hb with rfl | hb
    · decide
    · exact hz b (hdig b hb)
  · intro b hb
    exact hz b (hdig b hb)

theorem untilZero_padded (s : Bytes) (k : Nat) (hs : ∀ b ∈ s, b ≠ 0) :
    clientUntilZero (s ++ List.replicate k 0) = s := by
  unfold clientUntilZero
  induction s with
  | nil =>
    cases k with
    | zero => rfl
    | succ k => rfl
  | cons x xs ih =>
    have hx : x ≠ 0 := hs x (List.mem_cons_self _ _)
    rw [List.cons_append, List.takeWhile_cons_of_pos (by simpa using hx),
      ih (fun b hb => hs b (List.mem_cons_of_mem _ hb))]

theorem dropWhile_zero_replicate (k : Nat) (t : Bytes) :
    (List.replicate k (0 : UInt8) ++ t).dropWhile (fun b => b = 0) =
      t.dropWhile (fun b => b = 0) := by
  induction k with
  | zero => rfl
  | succ k ih =>
    rw [List.replicate_succ, List.cons_append, List.dropWhile_cons_of_pos (by simp), ih]

theorem dropTrailingZeros_padded (s : Bytes) (k : Nat) (hs : ∀ b ∈ s, b ≠ 0) :
    clientDropTrailingZeros (s ++ List.replicate k 0) = s := by
  unfold clientDropTrailingZeros
  rw [List.reverse_append, List.reverse_replicate, dropWhile_zero_replicate]
  have hrev : s.reverse.dropWhile (fun b => b = 0) = s.reverse := by
    cases hr : s.reverse with
    | nil => rfl
    | cons x xs =>
      have hx : x ≠ 0 := hs x (List.mem_reverse.mp (by rw [hr]; exact List.mem_cons_self _ _))
      rw [List.dropWhile_cons_of_neg (by simpa using hx)]
  rw [hrev, List.reverse_reverse]

theorem tokenField_response (u : Nat) (field : Bytes) (h : field.length = 12) :
    clientTokenField ([0x09] ++ BigEndian.PutUint32 u ++ field) = field := by
  have hd : ([0x09] ++ BigEndian.PutUint32 u ++ field).drop 5 = field := rfl
  unfold clientTokenField
  rw [hd, List.take_of_length_le (by omega)]

theorem padded_length (n : Int) (h : (Sprint n).length ≤ 11) :
    (Sprint n ++ List.replicate (12 - (Sprint n).length) 0).length = 12 := by
  rw [List.length_append, List.length_replicate]
  omega

/-! ## Every call of `HandlePacket` takes one of three courses -/

theorem buildResponse_marshal_some (H : Sha512) (q : QueryHandler) (pk : request) (A : Addr)
    (resp : response) (w : Buffer) (h : q.buildResponse H pk A = .ok resp) :
    ∃ out : Buffer, resp.Marshal w = some out := by
  unfold QueryHandler.buildResponse at h
  split at h
  · injection h with h
    subst h
    exact ⟨_, Marshal_handshake _ _ [] [] w (token_Sprint_length H _ _)⟩
  · split at h
    · split at h
      · cases h
      · injection h with h
        subst h
        exact ⟨_, Marshal_information _ _ _ _ w⟩
    · injection h with h
      subst h
      exact ⟨_, Marshal_information 0 0 [] [] w⟩

theorem HandlePacket_cases (H : Sha512) (q : QueryHandler) (b : Buffer) (A : Addr) :
    (∃ (pk : request) (rest : Buffer) (e : QueryError),
        request.Unmarshal {} b = (pk, rest, some e) ∧
          q.HandlePacket H b A = some { handler := q, buf := rest, err := some e }) ∨
      (∃ (pk : request) (rest : Buffer) (e : QueryError),
        request.Unmarshal {} b = (pk, rest, none) ∧ q.buildResponse H pk A = .error e ∧
          q.HandlePacket H b A = some { handler := q, buf := rest, err := some e }) ∨
      (∃ (pk : request) (rest : Buffer) (resp : response) (out : Buffer),
        request.Unmarshal {} b = (pk, rest, none) ∧ q.buildResponse H pk A = .ok resp ∧
          resp.Marshal rest = some out ∧
          q.HandlePacket H b A = some { handler := q, buf := out, err := none }) := by
  rcases hU : request.Unmarshal {} b with ⟨pk, rest, e⟩
  cases e with
  | some e => exact Or.inl ⟨pk, rest, e, rfl, HandlePacket_unmarshal_error H q b rest A pk e hU⟩
  | none =>
    cases hB : q.buildResponse H pk A with
    | error e =>
      exact Or.inr (Or.inl ⟨pk, rest, e, rfl, hB, HandlePacket_build_error H q b rest A pk e hU hB⟩)
    | ok resp =>
      obtain ⟨out, hM⟩ := buildResponse_marshal_some H q pk A resp rest hB
      exact Or.inr (Or.inr ⟨pk, rest, resp, out, rfl, hB, hM,
        HandlePacket_marshal H q b rest out A pk resp hU hB hM⟩)

/-! ## What a decode leaves in the buffer -/

theorem Unmarshal_rest (pk : request) (b : Buffer) :
    (request.Unmarshal pk b).2.1 = b.drop 5 ∨ (request.Unmarshal pk b).2.1 = b.drop 13 := by
  rcases b with _ | ⟨t, _ | ⟨s0, _ | ⟨s1, _ | ⟨s2, _ | ⟨s3, r⟩⟩⟩⟩⟩
  · left; rfl
  · left; rfl
  · left; rfl
  · left; rfl
  · left; rfl
  · by_cases h9 : t = 0x09
    · subst h9
      rw [Unmarshal_handshake]
      left; rfl
    · by_cases h0 : t = 0x00
      · subst h0
        right
        rcases r with _ | ⟨c0, _ | ⟨c1, _ | ⟨c2, _ | ⟨c3, _ | ⟨x, xs⟩⟩⟩⟩⟩
        · simp only [request.Unmarshal, binaryReadByte, binaryReadInt32, queryTypeInformation,
            if_true, List.drop]
        · simp only [request.Unmarshal, binaryReadByte, binaryReadInt32, queryTypeInformation,
            if_true, List.drop]
        · simp only [request.Unmarshal, binaryReadByte, binaryReadInt32, queryTypeInformation,
            if_true, List.drop]
        · simp only [request.Unmarshal, binaryReadByte, binaryReadInt32, queryTypeInformation,
            if_true, List.drop]
        · simp only [request.Unmarshal, binaryReadByte, binaryReadInt32, queryTypeInformation,
            if_true, Buffer.Read, OfNat.ofNat_ne_zero, if_false, List.drop]
        · rw [Unmarshal_information_tail]
          rfl
      · rw [Unmarshal_unknown pk t s0 s1 s2 s3 r h9 h0]
        left; rfl

theorem Unmarshal_success_shape (pk0 pk : request) (b rest : Buffer)
    (h : request.Unmarshal pk0 b = (pk, rest, none)) :
    (∃ s0 s1 s2 s3 : UInt8,
        b = 0x09 :: s0 :: s1 :: s2 :: s3 :: rest ∧
          pk = { pk0 with RequestType := 0x09,
                          SequenceNumber := int32 (BigEndian.Uint32 s0 s1 s2 s3) }) ∨
      (∃ (s0 s1 s2 s3 c0 c1 c2 c3 x : UInt8) (xs : Buffer),
        b = 0x00 :: s0 :: s1 :: s2 :: s3 :: c0 :: c1 :: c2 :: c3 :: x :: xs ∧
          rest = (x :: xs).drop 4 ∧
          pk = { pk0 with RequestType := 0x00,
                          SequenceNumber := int32 (BigEndian.Uint32 s0 s1 s2 s3),
                          ResponseNumber := int32 (BigEndian.Uint32 c0 c1 c2 c3) }) := by
  have herr : (request.Unmarshal pk0 b).2.2 = none := by rw [h]
  by_cases hb : b.length < 5
  · rcases Unmarshal_truncated pk0 b hb with he | he
    · rw [he] at herr; cases herr
    · rw [he] at herr; cases herr
  · rcases b with _ | ⟨t, _ | ⟨s0, _ | ⟨s1, _ | ⟨s2, _ | ⟨s3, r⟩⟩⟩⟩⟩
    · exact absurd (by simp only [List.length_nil]; omega) hb
    · exact absurd (by simp only [List.length_cons, List.length_nil]; omega) hb
    · exact absurd (by simp only [List.length_cons, List.length_nil]; omega) hb
    · exact absurd (by simp only [List.length_cons, List.length_nil]; omega) hb
    · exact absurd (by simp only [List.length_cons, List.length_nil]; omega) hb
    · by_cases h9 : t = 0x09
      · subst h9
        rw [Unmarshal_handshake] at h
        simp only [Prod.mk.injEq] at h
        left
        refine ⟨s0, s1, s2, s3, ?_, h.1.symm⟩
        rw [h.2.1]
      · by_cases h0 : t = 0x00
        · subst h0
          by_cases hr : r.length < 5
          · exact absurd herr (Unmarshal_information_error pk0 s0 s1 s2 s3 r hr)
          · rcases r with _ | ⟨c0, _ | ⟨c1, _ | ⟨c2, _ | ⟨c3, _ | ⟨x, xs⟩⟩⟩⟩⟩
            · exact absurd (by simp only [List.length_nil]; omega) hr
            · exact absurd (by simp only [List.length_cons, List.length_nil]; omega) hr
            · exact absurd (by simp only [List.length_cons, List.length_nil]; omega) hr
            · exact absurd (by simp only [List.length_cons, List.length_nil]; omega) hr
            · exact absurd (by simp only [List.length_cons, List.length_nil]; omega) hr
            · rw [Unmarshal_information_tail] at h
              simp only [Prod.mk.injEq] at h
              right
              exact ⟨s0, s1, s2, s3, c0, c1, c2, c3, x, xs, rfl, h.2.1.symm, h.1.symm⟩
        · rw [Unmarshal_unknown pk0 t s0 s1 s2 s3 r h9 h0] at herr
          cases herr

/-! ## The bytes of the digest that make the token -/

theorem digest_bytes (d : Bytes) (h : d.length = 64) :
    (d.drop 7).take 4 =
      [d.get ⟨7, by omega⟩, d.get ⟨8, by omega⟩, d.get ⟨9, by omega⟩, d.get ⟨10, by omega⟩] := by
  rw [List.drop_eq_getElem_cons (by omega : 7 < d.length),
    List.drop_eq_getElem_cons (by omega : 8 < d.length),
    List.drop_eq_getElem_cons (by omega : 9 < d.length),
    List.drop_eq_getElem_cons (by omega : 10 < d.length)]
  rfl

/-! ## The first five bytes of an encoded response -/

theorem take_five_handshake (k a0 a1 a2 a3 : UInt8) (f r : Bytes) :
    List.take 5 ([] ++ [k] ++ [a0, a1, a2, a3] ++ f) =
      List.take 5 (k :: a0 :: a1 :: a2 :: a3 :: r) := rfl

theorem take_five_information (k a0 a1 a2 a3 : UInt8) (f1 f2 f3 f4 r : Bytes) :
    List.take 5 ([] ++ [k] ++ [a0, a1, a2, a3] ++ f1 ++ f2 ++ f3 ++ f4) =
      List.take 5 (k :: a0 :: a1 :: a2 :: a3 :: r) := rfl

/-! ## Properties of the specification -/

/-- C1: for every handler, address and sequence number `S`, `HandlePacket` on the
5-byte handshake request (`0x09`, then `S` big-endian) returns no error and leaves
in the buffer `0x09`, the four big-endian bytes of `S`, and a 12-byte token field:
the decimal text of the `int32` token derived from the secret and `A.String()`, of
at most 11 bytes, followed by zero bytes only. -/
theorem C1_handshake_response (H : Sha512) (q : QueryHandler) (A : Addr) (S : Int) :
    q.HandlePacket H (queryTypeHandshake :: BigEndian.PutUint32 (uint32 S)) A =
        some { handler := q, err := none,
               buf := [0x09] ++ BigEndian.PutUint32 (uint32 S) ++
                 (Sprint (int32 (getTokenString H q.tokenGen.token A.String)) ++
                   List.replicate
                     (12 - (Sprint (int32 (getTokenString H q.tokenGen.token A.String))).length)
                     0) } ∧
      (Sprint (int32 (getTokenString H q.tokenGen.token A.String))).length ≤ 11 ∧
      (Sprint (int32 (getTokenString H q.tokenGen.token A.String)) ++
        List.replicate
          (12 - (Sprint (int32 (getTokenString H q.tokenGen.token A.String))).length)
          0).length = 12 := by
  have hlen := token_Sprint_length H q.tokenGen.token A.String
  refine ⟨?_, hlen, ?_⟩
  · have h := HandlePacket_handshake H q A (UInt8.ofNat (uint32 S / 16777216 % 256))
      (UInt8.ofNat (uint32 S / 65536 % 256)) (UInt8.ofNat (uint32 S / 256 % 256))
      (UInt8.ofNat (uint32 S % 256)) []
    rw [List.nil_append] at h
    exact h
  · rw [List.length_append, List.length_replicate]
    omega

/-- C2: for every handler, address and 13-byte information request (`0x00`, sequence
number, claimed token big-endian, four trailing bytes), `HandlePacket` returns the
token-mismatch error exactly when the claimed token differs from the `int32` token
derived from the secret and `A.String()`, and returns no error exactly when the two
are equal. -/
theorem C2_token_check (H : Sha512) (q : QueryHandler) (A : Addr)
    (s0 s1 s2 s3 c0 c1 c2 c3 t0 t1 t2 t3 : UInt8) :
    ((q.HandlePacket H [0x00, s0, s1, s2, s3, c0, c1, c2, c3, t0, t1, t2, t3] A).map
          (fun r => r.err) = some (some .tokenMismatch) ↔
        int32 (BigEndian.Uint32 c0 c1 c2 c3) ≠
          int32 (getTokenString H q.tokenGen.token A.String)) ∧
      ((q.HandlePacket H [0x00, s0, s1, s2, s3, c0, c1, c2, c3, t0, t1, t2, t3] A).map
          (fun r => r.err) = some none ↔
        int32 (BigEndian.Uint32 c0 c1 c2 c3) =
          int32 (getTokenString H q.tokenGen.token A.String)) := by
  by_cases h : int32 (BigEndian.Uint32 c0 c1 c2 c3) =
      int32 (getTokenString H q.tokenGen.token A.String)
  · rw [HandlePacket_information_match H q A s0 s1 s2 s3 c0 c1 c2 c3 t0 t1 t2 t3 [] h]
    rw [Option.map_some']
    exact ⟨⟨fun hc => (by cases hc), fun hc => absurd h hc⟩, ⟨fun _ => h, fun _ => rfl⟩⟩
  · rw [HandlePacket_information_mismatch H q A s0 s1 s2 s3 c0 c1 c2 c3 t0 t1 t2 t3 [] h]
    rw [Option.map_some']
    exact ⟨⟨fun _ => h, fun _ => rfl⟩, ⟨fun hc => (by cases hc), fun hc => absurd hc h⟩⟩

/-- C3 (the code at the failing input): `New` with the random bytes `01 .. 10`
returns a handler whose token secret is the empty string, not those 16 bytes. -/
theorem C3_New_token_empty :
    New [] [] (some [1, 2, 3, 4, 5, 6, 7, 8, 9, 10, 11, 12, 13, 14, 15, 16]) =
      some { queryInfo := [], players := [], tokenGen := { token := [] } } := by
  decide

/-- C4 (counterexample): for info hostname=Test and players Alice, Bob the bytes
after the 16-byte header are `hostname\0Test\0`, the marker, one more `\0`, then
`Alice\0Bob\0` and `\0`; they are not the marker immediately followed by
`Alice\0Bob\0` and one final `\0`. -/
theorem C4_counterexample :
    (response.Marshal
        { ResponseType := queryTypeInformation, SequenceNumber := 1, ResponseNumber := 0,
          Information := [([0x68, 0x6f, 0x73, 0x74, 0x6e, 0x61, 0x6d, 0x65],
                           [0x54, 0x65, 0x73, 0x74])],
          Players := [[0x41, 0x6c, 0x69, 0x63, 0x65], [0x42, 0x6f, 0x62]] } []).map
        (List.drop 16) =
      some ([0x68, 0x6f, 0x73, 0x74, 0x6e, 0x61, 0x6d, 0x65, 0x00, 0x54, 0x65, 0x73, 0x74, 0x00] ++
        [0x00, 0x01, 0x70, 0x6c, 0x61, 0x79, 0x65, 0x72, 0x5f, 0x00] ++ [0x00] ++
        [0x41, 0x6c, 0x69, 0x63, 0x65, 0x00, 0x42, 0x6f, 0x62, 0x00] ++ [0x00]) ∧
    (response.Marshal
        { ResponseType := queryTypeInformation, SequenceNumber := 1, ResponseNumber := 0,
          Information := [([0x68, 0x6f, 0x73, 0x74, 0x6e, 0x61, 0x6d, 0x65],
                           [0x54, 0x65, 0x73, 0x74])],
          Players := [[0x41, 0x6c, 0x69, 0x63, 0x65], [0x42, 0x6f, 0x62]] } []).map
        (List.drop 16) ≠
      some ([0x68, 0x6f, 0x73, 0x74, 0x6e, 0x61, 0x6d, 0x65, 0x00, 0x54, 0x65, 0x73, 0x74, 0x00] ++
        [0x00, 0x01, 0x70, 0x6c, 0x61, 0x79, 0x65, 0x72, 0x5f, 0x00] ++
        [0x41, 0x6c, 0x69, 0x63, 0x65, 0x00, 0x42, 0x6f, 0x62, 0x00] ++ [0x00]) := by
  decide

/-- C4 (amended): for every information response `Marshal` appends exactly `0x00`,
the four big-endian bytes of the sequence number, `SPLITNUM\0`, `0x80`, `0x00`, for
each pair the key, `0x00`, the value, `0x00`, then the 10 marker bytes, one `0x00`,
for each player its name and `0x00`, and one final `0x00`. -/
theorem C4_information_layout (S n : Int) (info : List (Bytes × Bytes)) (players : List Bytes)
    (w : Buffer) :
    response.Marshal { ResponseType := queryTypeInformation, SequenceNumber := S,
                       ResponseNumber := n, Information := info, Players := players } w =
      some (w ++ ([0x00] ++ BigEndian.PutUint32 (uint32 S) ++
        [0x53, 0x50, 0x4c, 0x49, 0x54, 0x4e, 0x55, 0x4d, 0x00] ++ [0x80, 0x00] ++
        (info.map (fun kv => kv.1 ++ [0x00] ++ kv.2 ++ [0x00])).flatten ++
        [0x00, 0x01, 0x70, 0x6c, 0x61, 0x79, 0x65, 0x72, 0x5f, 0x00] ++ [0x00] ++
        (players.map (fun p => p ++ [0x00])).flatten ++ [0x00])) := by
  have hpairs : ((info.map (fun kv => [kv.1, kv.2])).flatten.map
      (fun x => x ++ [(0x00 : UInt8)])).flatten =
      (info.map (fun kv => kv.1 ++ [0x00] ++ kv.2 ++ [0x00])).flatten := by
    induction info with
    | nil => rfl
    | cons kv info ih =>
      simp only [List.map_cons, List.flatten_cons, List.map_append, List.flatten_append,
        List.append_assoc, List.cons_append, List.nil_append, List.map_nil, List.flatten_nil,
        List.append_nil] at ih ⊢
      rw [ih]
  rw [Marshal_information, bytesJoin_eq_intercalate, intercalate_append_singleton]
  simp only [List.map_append, List.flatten_append, hpairs, List.map_cons, List.map_nil,
    List.flatten_cons, List.flatten_nil, List.append_nil, splitNum, playerKey,
    List.append_assoc, List.cons_append, List.nil_append]

/-- C5: for every information response the bytes `Marshal` appends after the
16-byte fixed header are the segments `k1, v1, .., km, vm`, the player marker,
`p1, .., pn` and the one-byte segment `0x00`, joined with one `0x00` between
every two consecutive segments and nothing before the first or after the last. -/
theorem C5_segments_joined (S n : Int) (info : List (Bytes × Bytes)) (players : List Bytes)
    (w : Buffer) :
    response.Marshal { ResponseType := queryTypeInformation, SequenceNumber := S,
                       ResponseNumber := n, Information := info, Players := players } w =
        some (w ++ ([0x00] ++ BigEndian.PutUint32 (uint32 S) ++
            [0x53, 0x50, 0x4c, 0x49, 0x54, 0x4e, 0x55, 0x4d, 0x00] ++ [0x80, 0x00]) ++
          List.intercalate [0x00]
            ((info.map (fun kv => [kv.1, kv.2])).flatten ++
              [[0x00, 0x01, 0x70, 0x6c, 0x61, 0x79, 0x65, 0x72, 0x5f, 0x00]] ++ players ++
              [[0x00]])) ∧
      ([0x00] ++ BigEndian.PutUint32 (uint32 S) ++
        [0x53, 0x50, 0x4c, 0x49, 0x54, 0x4e, 0x55, 0x4d, 0x00] ++ [0x80, 0x00]).length = 16 := by
  refine ⟨?_, rfl⟩
  rw [Marshal_information, bytesJoin_eq_intercalate]
  simp only [splitNum, playerKey, List.append_assoc, List.cons_append, List.nil_append]

/-- C6: on every buffer of at least 5 bytes that starts with `0x09`, `Unmarshal`
returns no error, sets the kind to handshake and the sequence number to bytes 1..4
read big-endian as a signed 32-bit integer, and consumes exactly 5 bytes; on every
buffer of at least 13 bytes that starts with `0x00` it returns no error, sets the
kind to information, the sequence number from bytes 1..4 and the claimed token
from bytes 5..8 in the same way, and consumes exactly 13 bytes. -/
theorem C6_unmarshal_fields (pk : request) (s0 s1 s2 s3 c0 c1 c2 c3 t0 t1 t2 t3 : UInt8)
    (rest : Buffer) :
    request.Unmarshal pk (0x09 :: s0 :: s1 :: s2 :: s3 :: rest) =
        ({ pk with
            RequestType := queryTypeHandshake,
            SequenceNumber :=
              if BigEndian.Uint32 s0 s1 s2 s3 < 2147483648 then
                (BigEndian.Uint32 s0 s1 s2 s3 : Int)
              else (BigEndian.Uint32 s0 s1 s2 s3 : Int) - 4294967296 }, rest, none) ∧
      request.Unmarshal pk
          (0x00 :: s0 :: s1 :: s2 :: s3 :: c0 :: c1 :: c2 :: c3 :: t0 :: t1 :: t2 :: t3 :: rest) =
        ({ pk with
            RequestType := queryTypeInformation,
            SequenceNumber :=
              if BigEndian.Uint32 s0 s1 s2 s3 < 2147483648 then
                (BigEndian.Uint32 s0 s1 s2 s3 : Int)
              else (BigEndian.Uint32 s0 s1 s2 s3 : Int) - 4294967296,
            ResponseNumber :=
              if BigEndian.Uint32 c0 c1 c2 c3 < 2147483648 then
                (BigEndian.Uint32 c0 c1 c2 c3 : Int)
              else (BigEndian.Uint32 c0 c1 c2 c3 : Int) - 4294967296 }, rest, none) := by
  rw [Unmarshal_handshake, Unmarshal_information,
    int32_natCast _ (Uint32_lt s0 s1 s2 s3), int32_natCast _ (Uint32_lt c0 c1 c2 c3)]
  exact ⟨rfl, rfl⟩

/-- C7 (the code at the failing input): on the 10-byte information request
`00 | 00 00 00 01 | 00 00 00 02 | ff` `Unmarshal` returns no error, since the last
read takes the one trailing byte that is there; and for every handler and address,
`HandlePacket` on the 10-byte information request that carries the derived token
returns no error and leaves an information response in the buffer. -/
theorem C7_short_information_accepted (H : Sha512) (q : QueryHandler) (A : Addr) :
    request.Unmarshal {} [0x00, 0, 0, 0, 1, 0, 0, 0, 2, 0xff] =
        ({ RequestType := 0x00, SequenceNumber := 1, ResponseNumber := 2, Token := 0 }, [],
          none) ∧
      q.HandlePacket H
          ([0x00, 0, 0, 0, 1] ++
            BigEndian.PutUint32 (uint32 (int32 (getTokenString H q.tokenGen.token A.String))) ++
            [0xff]) A =
        some { handler := q, err := none,
               buf := [0x00, 0, 0, 0, 1] ++ splitNum ++ [0x80, 0x00] ++
                 bytesJoin ((q.queryInfo.map (fun kv => [kv.1, kv.2])).flatten ++
                   [playerKey] ++ q.players ++ [[0x00]]) [0x00] } := by
  refine ⟨by decide, ?_⟩
  have hT : int32 (int32 (getTokenString H q.tokenGen.token A.String)) =
      int32 (getTokenString H q.tokenGen.token A.String) :=
    int32_of_range _ (int32_range _).1 (int32_range _).2
  have h := HandlePacket_information_tail H q A 0 0 0 1
    (UInt8.ofNat (uint32 (int32 (getTokenString H q.tokenGen.token A.String)) / 16777216 % 256))
    (UInt8.ofNat (uint32 (int32 (getTokenString H q.tokenGen.token A.String)) / 65536 % 256))
    (UInt8.ofNat (uint32 (int32 (getTokenString H q.tokenGen.token A.String)) / 256 % 256))
    (UInt8.ofNat (uint32 (int32 (getTokenString H q.tokenGen.token A.String)) % 256))
    0xff [] ((int32_read_back _).trans hT)
  exact h

/-- C8: on every buffer shorter than 5 bytes, whatever its first byte, `Unmarshal`
returns `io.EOF` or `io.ErrUnexpectedEOF`. -/
theorem C8_short_buffer_truncated (pk : request) (buf : Buffer) (h : buf.length < 5) :
    (request.Unmarshal pk buf).2.2 = some .EOF ∨
      (request.Unmarshal pk buf).2.2 = some .ErrUnexpectedEOF :=
  Unmarshal_truncated pk buf h

/-- C8 at the 3-byte buffer `09 01 02`. -/
theorem C8_short_buffer_truncated_witness :
    ([0x09, 1, 2] : Buffer).length < 5 ∧
      ((request.Unmarshal {} [0x09, 1, 2]).2.2 = some .EOF ∨
        (request.Unmarshal {} [0x09, 1, 2]).2.2 = some .ErrUnexpectedEOF) :=
  ⟨by decide, C8_short_buffer_truncated {} [0x09, 1, 2] (by decide)⟩

/-- C9 (counterexample): on the one-byte buffer `05` `Unmarshal` returns `io.EOF`,
not the unknown-request-type error for `0x05`. -/
theorem C9_counterexample :
    (request.Unmarshal {} [0x05]).2.2 = some .EOF ∧
      (request.Unmarshal {} [0x05]).2.2 ≠ some (.unknownRequestType 0x05) := by
  decide

/-- C9 (amended): for every request buffer whose first byte `t` is neither `0x09`
nor `0x00`: when at least four bytes follow it, `Unmarshal` fails with the
unknown-request-type error that names `t`; when fewer follow, it fails with
`io.EOF` or `io.ErrUnexpectedEOF`; in both cases `HandlePacket` returns the error
of `Unmarshal` and writes nothing: the buffer keeps only the request bytes after
the fifth. -/
theorem C9_unknown_request_type (H : Sha512) (q : QueryHandler) (A : Addr) (t : UInt8)
    (rest : Buffer) (h9 : t ≠ 0x09) (h0 : t ≠ 0x00) :
    (4 ≤ rest.length →
        (request.Unmarshal {} (t :: rest)).2.2 = some (.unknownRequestType t)) ∧
      (rest.length < 4 →
        (request.Unmarshal {} (t :: rest)).2.2 = some .EOF ∨
          (request.Unmarshal {} (t :: rest)).2.2 = some .ErrUnexpectedEOF) ∧
      (∃ e, (request.Unmarshal {} (t :: rest)).2.2 = some e ∧
        q.HandlePacket H (t :: rest) A =
          some { handler := q, buf := rest.drop 4, err := some e }) := by
  by_cases hl : rest.length < 4
  · have hdrop : rest.drop 4 = [] := List.drop_eq_nil_of_le (by omega)
    rw [hdrop]
    refine ⟨fun h4 => absurd hl (by omega), fun _ => ?_, ?_⟩
    · rcases Unmarshal_short {} t rest hl with hu | hu
      · left; rw [hu]
      · right; rw [hu]
    · rcases Unmarshal_short {} t rest hl with hu | hu
      · exact ⟨_, by rw [hu], HandlePacket_unmarshal_error H q _ _ A _ _ hu⟩
      · exact ⟨_, by rw [hu], HandlePacket_unmarshal_error H q _ _ A _ _ hu⟩
  · rcases rest with _ | ⟨s0, _ | ⟨s1, _ | ⟨s2, _ | ⟨s3, rest⟩⟩⟩⟩
    · exact absurd (by simp only [List.length_nil]; omega) hl
    · exact absurd (by simp only [List.length_cons, List.length_nil]; omega) hl
    · exact absurd (by simp only [List.length_cons, List.length_nil]; omega) hl
    · exact absurd (by simp only [List.length_cons, List.length_nil]; omega) hl
    · have hu := Unmarshal_unknown {} t s0 s1 s2 s3 rest h9 h0
      refine ⟨fun _ => by rw [hu], fun h4 => absurd h4 hl, ?_⟩
      exact ⟨_, by rw [hu], HandlePacket_unmarshal_error H q _ _ A _ _ hu⟩

/-- C9 (amended) at the buffer `05 01 02 03 04 05`. -/
theorem C9_unknown_request_type_witness :
    (0x05 : UInt8) ≠ 0x09 ∧ (0x05 : UInt8) ≠ 0x00 ∧
      (request.Unmarshal {} [0x05, 1, 2, 3, 4, 5]).2.2 = some (.unknownRequestType 0x05) ∧
      (∃ e, (request.Unmarshal {} [0x05, 1, 2, 3, 4, 5]).2.2 = some e ∧
        sampleHandler.HandlePacket sampleDigest [0x05, 1, 2, 3, 4, 5] sampleAddr =
          some { handler := sampleHandler, buf := [5], err := some e }) :=
  ⟨by decide, by decide,
    (C9_unknown_request_type sampleDigest sampleHandler sampleAddr 0x05 [1, 2, 3, 4, 5]
      (by decide) (by decide)).1 (by decide),
    (C9_unknown_request_type sampleDigest sampleHandler sampleAddr 0x05 [1, 2, 3, 4, 5]
      (by decide) (by decide)).2.2⟩

/-- C10 (counterexample): on the 6-byte handshake request `09 00 00 00 01 aa`
there is no digest function for which the buffer after a successful call is the
encoded response: the call succeeds and the buffer starts with the unread byte
`aa`. -/
theorem C10_counterexample :
    ¬ ∃ H : Sha512, ∀ r : HandleResult,
        sampleHandler.HandlePacket H [0x09, 0, 0, 0, 1, 0xaa] sampleAddr = some r →
        r.err = none →
        ∃ resp : response,
          sampleHandler.buildResponse H (request.Unmarshal {} [0x09, 0, 0, 0, 1, 0xaa]).1
              sampleAddr = .ok resp ∧
            resp.Marshal [] = some r.buf := by
  rintro ⟨H, h⟩
  obtain ⟨resp, hb, hm⟩ := h _ (HandlePacket_handshake H sampleHandler sampleAddr 0 0 0 1 [0xaa]) rfl
  rw [Unmarshal_handshake, buildResponse_handshake] at hb
  injection hb with hb
  subst hb
  rw [Marshal_handshake _ _ _ _ _ (token_Sprint_length H _ _)] at hm
  injection hm with hm
  have hlen := congrArg List.length hm
  simp only [List.length_append, List.length_cons, List.length_nil, PutUint32_length] at hlen
  omega

/-- C10 (amended): whenever `HandlePacket` returns no error, the buffer afterwards
is the request bytes that `Unmarshal` left unread (those after the first 5 of a
handshake request, after the first 13 of an information request) followed by the
encoded response. -/
theorem C10_buffer_after_success (H : Sha512) (q : QueryHandler) (b : Buffer) (A : Addr)
    (r : HandleResult) (h : q.HandlePacket H b A = some r) (herr : r.err = none) :
    ∃ (resp : response) (enc : Bytes),
      q.buildResponse H (request.Unmarshal {} b).1 A = .ok resp ∧
        resp.Marshal [] = some enc ∧
        r.buf =
          b.drop (if (request.Unmarshal {} b).1.RequestType = queryTypeHandshake then 5
            else 13) ++ enc := by
  rcases hU : request.Unmarshal {} b with ⟨pk, rest, e⟩
  cases e with
  | some e =>
    rw [HandlePacket_unmarshal_error H q b rest A pk e hU] at h
    injection h with h
    subst h
    cases herr
  | none =>
    cases hB : q.buildResponse H pk A with
    | error e =>
      rw [HandlePacket_build_error H q b rest A pk e hU hB] at h
      injection h with h
      subst h
      cases herr
    | ok resp =>
      cases hM : resp.Marshal rest with
      | none =>
        rw [HandlePacket_marshal_none H q b rest A pk resp hU hB hM] at h
        cases h
      | some out =>
        rw [HandlePacket_marshal H q b rest out A pk resp hU hB hM] at h
        injection h with h
        subst h
        have happ := Marshal_append resp rest
        rw [hM] at happ
        cases hE : resp.Marshal [] with
        | none => rw [hE] at happ; cases happ
        | some enc =>
          rw [hE, Option.map_some'] at happ
          injection happ with happ
          refine ⟨resp, enc, rfl, hE, ?_⟩
          rcases Unmarshal_success {} pk b rest hU with ⟨ht, hr⟩ | ⟨ht, hr⟩
          · show out = _
            rw [happ, hr, if_pos ht]
          · have hne : ¬ (pk.RequestType = queryTypeHandshake) := by
              rw [ht]; decide
            show out = _
            rw [happ, hr, if_neg hne]

/-- C10 (amended) at the 6-byte handshake request `09 00 00 00 01 aa`. -/
theorem C10_buffer_after_success_witness :
    ∃ (resp : response) (enc : Bytes),
      sampleHandler.buildResponse sampleDigest
          (request.Unmarshal {} [0x09, 0, 0, 0, 1, 0xaa]).1 sampleAddr = .ok resp ∧
        resp.Marshal [] = some enc ∧
        ([0xaa, 0x09, 0, 0, 0, 1, 57, 55, 54, 53, 54, 54, 56, 57, 57, 0, 0, 0] : Buffer) =
          List.drop
            (if (request.Unmarshal {} [0x09, 0, 0, 0, 1, 0xaa]).1.RequestType =
              queryTypeHandshake then 5 else 13)
            [0x09, 0, 0, 0, 1, 0xaa] ++ enc :=
  C10_buffer_after_success sampleDigest sampleHandler [0x09, 0, 0, 0, 1, 0xaa] sampleAddr
    { handler := sampleHandler,
      buf := [0xaa, 0x09, 0, 0, 0, 1, 57, 55, 54, 53, 54, 54, 56, 57, 57, 0, 0, 0],
      err := none }
    (by decide) rfl

/-- C11: whenever `HandlePacket` returns an error, a decode error or a token
mismatch, the buffer afterwards holds exactly what the reads of `Unmarshal` left of
the request, which is the request without its first 5 or its first 13 bytes:
nothing was written to it. -/
theorem C11_error_writes_nothing (H : Sha512) (q : QueryHandler) (b : Buffer) (A : Addr)
    (r : HandleResult) (h : q.HandlePacket H b A = some r) (herr : r.err ≠ none) :
    r.buf = (request.Unmarshal {} b).2.1 ∧ (r.buf = b.drop 5 ∨ r.buf = b.drop 13) := by
  have hrest := Unmarshal_rest {} b
  rcases HandlePacket_cases H q b A with ⟨pk, rest, e, hU, hH⟩ | ⟨pk, rest, e, hU, _, hH⟩ |
    ⟨pk, rest, resp, out, _, _, _, hH⟩
  · rw [hH] at h
    injection h with h
    subst h
    rw [hU] at hrest ⊢
    exact ⟨rfl, hrest⟩
  · rw [hH] at h
    injection h with h
    subst h
    rw [hU] at hrest ⊢
    exact ⟨rfl, hrest⟩
  · rw [hH] at h
    injection h with h
    subst h
    exact absurd rfl herr

/-- C11 at the 14-byte information request `00 | 00 00 00 01 | 00 00 00 02 |
01 02 03 04 | 05`, whose claimed token 2 is not the derived one. -/
theorem C11_error_writes_nothing_witness :
    ([0x05] : Buffer) =
        (request.Unmarshal {} [0x00, 0, 0, 0, 1, 0, 0, 0, 2, 1, 2, 3, 4, 5]).2.1 ∧
      (([0x05] : Buffer) = List.drop 5 [0x00, 0, 0, 0, 1, 0, 0, 0, 2, 1, 2, 3, 4, 5] ∨
        ([0x05] : Buffer) = List.drop 13 [0x00, 0, 0, 0, 1, 0, 0, 0, 2, 1, 2, 3, 4, 5]) :=
  C11_error_writes_nothing sampleDigest sampleHandler
    [0x00, 0, 0, 0, 1, 0, 0, 0, 2, 1, 2, 3, 4, 5] sampleAddr
    { handler := sampleHandler, buf := [0x05], err := some .tokenMismatch }
    (by decide) (by decide)

/-- C12: for every secret and address string the token number that `HandlePacket`
derives, `int32(getTokenString(secret, address))`, is the four bytes at offsets 7
to 10 of the digest of `address ++ ":" ++ secret`, read as a big-endian unsigned
32-bit integer `u`, taken as `u` when `u < 2^31` and as `u - 2^32` otherwise. -/
theorem C12_token_number (H : Sha512) (secret address : Bytes) :
    ∃ b0 b1 b2 b3 : UInt8,
      ((H.Sum (address ++ [0x3a] ++ secret)).drop 7).take 4 = [b0, b1, b2, b3] ∧
        int32 (getTokenString H secret address) =
          if b0.toNat * 16777216 + b1.toNat * 65536 + b2.toNat * 256 + b3.toNat < 2147483648
          then ((b0.toNat * 16777216 + b1.toNat * 65536 + b2.toNat * 256 + b3.toNat : Nat) : Int)
          else ((b0.toNat * 16777216 + b1.toNat * 65536 + b2.toNat * 256 + b3.toNat : Nat) : Int)
            - 4294967296 := by
  refine ⟨_, _, _, _, digest_bytes _ (H.Size _), ?_⟩
  have hU : ∀ a0 a1 a2 a3 : UInt8, BigEndian.Uint32 a0 a1 a2 a3 =
      a0.toNat * 16777216 + a1.toNat * 65536 + a2.toNat * 256 + a3.toNat := by
    intro a0 a1 a2 a3
    unfold BigEndian.Uint32
    omega
  unfold getTokenString
  rw [int32_natCast _ (Uint32_lt _ _ _ _), hU]

/-- C13: for every handler, address `A` and sequence numbers `S1`, `S2`: the
handshake request (`0x09`, `S1`) from `A` is answered without error; the bytes of
the token field of the answer up to the first zero byte read as a decimal integer
`T`; and the 13-byte information request (`0x00`, `S2`, `T` big-endian, any four
bytes) from `A` on the same handler is answered without error. -/
theorem C13_handshake_then_information (H : Sha512) (q : QueryHandler) (A : Addr)
    (S1 S2 : Int) (x0 x1 x2 x3 : UInt8) :
    ∃ (r1 : HandleResult) (T : Int),
      q.HandlePacket H (queryTypeHandshake :: BigEndian.PutUint32 (uint32 S1)) A = some r1 ∧
        r1.err = none ∧
        clientParseDecimal (clientUntilZero (clientTokenField r1.buf)) = some T ∧
        ∃ r2 : HandleResult,
          r1.handler.HandlePacket H
              ([0x00] ++ BigEndian.PutUint32 (uint32 S2) ++ BigEndian.PutUint32 (uint32 T) ++
                [x0, x1, x2, x3]) A = some r2 ∧
            r2.err = none := by
  have hlen := token_Sprint_length H q.tokenGen.token A.String
  have h1 := HandlePacket_handshake H q A (UInt8.ofNat (uint32 S1 / 16777216 % 256))
    (UInt8.ofNat (uint32 S1 / 65536 % 256)) (UInt8.ofNat (uint32 S1 / 256 % 256))
    (UInt8.ofNat (uint32 S1 % 256)) []
  rw [List.nil_append] at h1
  have hT : int32 (int32 (getTokenString H q.tokenGen.token A.String)) =
      int32 (getTokenString H q.tokenGen.token A.String) :=
    int32_of_range _ (int32_range _).1 (int32_range _).2
  have h2 := HandlePacket_information_match H q A
    (UInt8.ofNat (uint32 S2 / 16777216 % 256)) (UInt8.ofNat (uint32 S2 / 65536 % 256))
    (UInt8.ofNat (uint32 S2 / 256 % 256)) (UInt8.ofNat (uint32 S2 % 256))
    (UInt8.ofNat (uint32 (int32 (getTokenString H q.tokenGen.token A.String)) / 16777216 % 256))
    (UInt8.ofNat (uint32 (int32 (getTokenString H q.tokenGen.token A.String)) / 65536 % 256))
    (UInt8.ofNat (uint32 (int32 (getTokenString H q.tokenGen.token A.String)) / 256 % 256))
    (UInt8.ofNat (uint32 (int32 (getTokenString H q.tokenGen.token A.String)) % 256))
    x0 x1 x2 x3 [] ((int32_read_back _).trans hT)
  refine ⟨_, int32 (getTokenString H q.tokenGen.token A.String), h1, rfl, ?_, _, h2, rfl⟩
  show clientParseDecimal (clientUntilZero
    (clientTokenField ([0x09] ++ BigEndian.PutUint32 (uint32 S1) ++ _))) = _
  rw [tokenField_response _ _ (padded_length _ hlen), untilZero_padded _ _ (Sprint_ne_zero _),
    parseDecimal_Sprint]

/-- C14: for every signed 32-bit token number `n`, negative values included, the
12-byte token field that `Marshal` writes for a handshake response, with its
trailing zero bytes dropped, reads as the decimal integer `n`. -/
theorem C14_token_field_round_trip (S n : Int) (h1 : -2147483648 ≤ n) (h2 : n < 2147483648) :
    ∃ out : Bytes,
      response.Marshal { ResponseType := queryTypeHandshake, SequenceNumber := S,
                         ResponseNumber := n } [] = some out ∧
        clientParseDecimal (clientDropTrailingZeros (clientTokenField out)) = some n := by
  have hlen := Sprint_length_le n h1 h2
  have hm := Marshal_handshake S n [] [] [] hlen
  rw [List.nil_append] at hm
  refine ⟨_, hm, ?_⟩
  rw [tokenField_response _ _ (padded_length _ hlen),
    dropTrailingZeros_padded _ _ (Sprint_ne_zero _), parseDecimal_Sprint]

/-- C14 at the smallest token number, `-2147483648`. -/
theorem C14_token_field_round_trip_witness :
    ∃ out : Bytes,
      response.Marshal { ResponseType := queryTypeHandshake, SequenceNumber := 7,
                         ResponseNumber := -2147483648 } [] = some out ∧
        clientParseDecimal (clientDropTrailingZeros (clientTokenField out)) = some (-2147483648) :=
  C14_token_field_round_trip 7 (-2147483648) (by decide) (by decide)

/-- C15: for every signed 32-bit token number the decimal text is at most 11 bytes
long, so the padding length `12 - len` that `Marshal` passes to `make` is not
negative and `make` does not panic; the token field is exactly 12 bytes and the
encoded handshake response exactly 17 bytes. -/
theorem C15_handshake_length (S n : Int) (h1 : -2147483648 ≤ n) (h2 : n < 2147483648) :
    (Sprint n).length ≤ 11 ∧
      (0 : Int) ≤ 12 - ((Sprint n).length : Int) ∧
      makeBytes (12 - ((Sprint n).length : Int)) =
        some (List.replicate (12 - (Sprint n).length) 0) ∧
      ∃ out : Bytes,
        response.Marshal { ResponseType := queryTypeHandshake, SequenceNumber := S,
                           ResponseNumber := n } [] = some out ∧
          (clientTokenField out).length = 12 ∧ out.length = 17 := by
  have hlen := Sprint_length_le n h1 h2
  have hm := Marshal_handshake S n [] [] [] hlen
  rw [List.nil_append] at hm
  have hpad : makeBytes (12 - ((Sprint n).length : Int)) =
      some (List.replicate (12 - (Sprint n).length) 0) := by
    unfold makeBytes
    rw [if_neg (by omega)]
    congr 2
    omega
  refine ⟨hlen, by omega, hpad, _, hm, ?_, ?_⟩
  · rw [tokenField_response _ _ (padded_length _ hlen)]
    exact padded_length _ hlen
  · rw [List.length_append, List.length_append, padded_length _ hlen, PutUint32_length]
    rfl

/-- C15 at the token number with the longest decimal text, `-2147483648`. -/
theorem C15_handshake_length_witness :
    (Sprint (-2147483648)).length ≤ 11 ∧
      (0 : Int) ≤ 12 - ((Sprint (-2147483648)).length : Int) ∧
      makeBytes (12 - ((Sprint (-2147483648)).length : Int)) =
        some (List.replicate (12 - (Sprint (-2147483648)).length) 0) ∧
      ∃ out : Bytes,
        response.Marshal { ResponseType := queryTypeHandshake, SequenceNumber := 7,
                           ResponseNumber := -2147483648 } [] = some out ∧
          (clientTokenField out).length = 12 ∧ out.length = 17 :=
  C15_handshake_length 7 (-2147483648) (by decide) (by decide)

/-- C16: for every request on which `HandlePacket` returns no error, handshake or
information, the request has at least 5 bytes and the first 5 bytes of the encoded
response, the kind byte and the big-endian sequence number, are the first 5 bytes
of the request. -/
theorem C16_kind_and_sequence_echoed (H : Sha512) (q : QueryHandler) (b : Buffer) (A : Addr)
    (r : HandleResult) (h : q.HandlePacket H b A = some r) (herr : r.err = none) :
    ∃ (resp : response) (enc : Bytes),
      q.buildResponse H (request.Unmarshal {} b).1 A = .ok resp ∧
        resp.Marshal [] = some enc ∧
        r.buf = (request.Unmarshal {} b).2.1 ++ enc ∧
        5 ≤ b.length ∧ enc.take 5 = b.take 5 := by
  rcases HandlePacket_cases H q b A with ⟨pk, rest, e, _, hH⟩ | ⟨pk, rest, e, _, _, hH⟩ |
    ⟨pk, rest, resp, out, hU, hB, hM, hH⟩
  · rw [hH] at h
    injection h with h
    subst h
    cases herr
  · rw [hH] at h
    injection h with h
    subst h
    cases herr
  · rw [hH] at h
    injection h with h
    subst h
    rw [hU]
    have happ := Marshal_append resp rest
    rw [hM] at happ
    cases hE : resp.Marshal [] with
    | none => rw [hE] at happ; cases happ
    | some enc =>
      rw [hE, Option.map_some'] at happ
      injection happ with happ
      refine ⟨resp, enc, hB, hE, happ, ?_⟩
      rcases Unmarshal_success_shape {} pk b rest hU with ⟨s0, s1, s2, s3, hb, hpk⟩ |
        ⟨s0, s1, s2, s3, c0, c1, c2, c3, x, xs, hb, _, hpk⟩
      · subst hb hpk
        rw [buildResponse_handshake] at hB
        injection hB with hB
        subst hB
        rw [Marshal_handshake _ _ _ _ _ (token_Sprint_length H _ _), uint32_int32,
          uint32_natCast _ (Uint32_lt s0 s1 s2 s3), PutUint32_Uint32] at hE
        injection hE with hE
        subst hE
        refine ⟨?_, take_five_handshake _ _ _ _ _ _ _⟩
        simp only [List.length_cons]
        omega
      · subst hb hpk
        rw [buildResponse_information] at hB
        split at hB
        · cases hB
        · injection hB with hB
          subst hB
          rw [Marshal_information, uint32_int32, uint32_natCast _ (Uint32_lt s0 s1 s2 s3),
            PutUint32_Uint32] at hE
          injection hE with hE
          subst hE
          refine ⟨?_, take_five_information _ _ _ _ _ _ _ _ _ _⟩
          simp only [List.length_cons]
          omega

/-- C16 at the handshake request `09 00 00 00 01`. -/
theorem C16_kind_and_sequence_echoed_witness :
    ∃ (resp : response) (enc : Bytes),
      sampleHandler.buildResponse sampleDigest (request.Unmarshal {} [0x09, 0, 0, 0, 1]).1
          sampleAddr = .ok resp ∧
        resp.Marshal [] = some enc ∧
        ([0x09, 0, 0, 0, 1, 57, 55, 54, 53, 54, 54, 56, 57, 57, 0, 0, 0] : Buffer) =
          (request.Unmarshal {} [0x09, 0, 0, 0, 1]).2.1 ++ enc ∧
        5 ≤ ([0x09, 0, 0, 0, 1] : Buffer).length ∧
        enc.take 5 = List.take 5 [0x09, 0, 0, 0, 1] :=
  C16_kind_and_sequence_echoed sampleDigest sampleHandler [0x09, 0, 0, 0, 1] sampleAddr
    { handler := sampleHandler,
      buf := [0x09, 0, 0, 0, 1, 57, 55, 54, 53, 54, 54, 56, 57, 57, 0, 0, 0],
      err := none }
    (by decide) rfl

/-- C17: `SetQueryInfo(m)` makes the handler's info `m` and leaves players and token
secret as they were; `SetPlayers(p)` makes the players `p` and leaves info and
token secret as they were; `HandlePacket` always returns, with or without an
error, and leaves the handler, its info, players and secret, as it was. -/
theorem C17_frame (H : Sha512) (q : QueryHandler) (m : List (Bytes × Bytes))
    (p : List Bytes) (b : Buffer) (A : Addr) :
    (q.SetQueryInfo m).queryInfo = m ∧ (q.SetQueryInfo m).players = q.players ∧
      (q.SetQueryInfo m).tokenGen = q.tokenGen ∧
      (q.SetPlayers p).players = p ∧ (q.SetPlayers p).queryInfo = q.queryInfo ∧
      (q.SetPlayers p).tokenGen = q.tokenGen ∧
      ∃ r : HandleResult, q.HandlePacket H b A = some r ∧ r.handler = q := by
  refine ⟨rfl, rfl, rfl, rfl, rfl, rfl, ?_⟩
  rcases HandlePacket_cases H q b A with ⟨_, _, _, _, hH⟩ | ⟨_, _, _, _, _, hH⟩ |
    ⟨_, _, _, _, _, _, _, hH⟩
  · exact ⟨_, hH, rfl⟩
  · exact ⟨_, hH, rfl⟩
  · exact ⟨_, hH, rfl⟩

/-- C19: for every request buffer on which `Unmarshal` returns no error the decoded
kind is `0x09` or `0x00`; and whenever `HandlePacket` on that buffer returns no
error, the response it encoded has the kind of the request, `0x09` or `0x00`. -/
theorem C19_decoded_kind (pk0 : request) (b : Buffer)
    (h : (request.Unmarshal pk0 b).2.2 = none) :
    ((request.Unmarshal pk0 b).1.RequestType = queryTypeHandshake ∨
        (request.Unmarshal pk0 b).1.RequestType = queryTypeInformation) ∧
      ∀ (H : Sha512) (q : QueryHandler) (A : Addr) (r : HandleResult),
        q.HandlePacket H b A = some r → r.err = none →
          ∃ resp : response,
            q.buildResponse H (request.Unmarshal {} b).1 A = .ok resp ∧
              resp.ResponseType = (request.Unmarshal {} b).1.RequestType ∧
              (resp.ResponseType = queryTypeHandshake ∨
                resp.ResponseType = queryTypeInformation) := by
  constructor
  · rcases hU : request.Unmarshal pk0 b with ⟨pk, rest, e⟩
    rw [hU] at h
    cases h
    rcases Unmarshal_success pk0 pk b rest hU with ⟨ht, _⟩ | ⟨ht, _⟩
    · exact Or.inl ht
    · exact Or.inr ht
  · intro H q A r hr herr
    rcases HandlePacket_cases H q b A with ⟨pk, rest, e, _, hH⟩ | ⟨pk, rest, e, _, _, hH⟩ |
      ⟨pk, rest, resp, out, hU, hB, _, hH⟩
    · rw [hH] at hr
      injection hr with hr
      subst hr
      cases herr
    · rw [hH] at hr
      injection hr with hr
      subst hr
      cases herr
    · rw [hU]
      refine ⟨resp, hB, ?_⟩
      rcases Unmarshal_success_shape {} pk b rest hU with ⟨s0, s1, s2, s3, _, hpk⟩ |
        ⟨s0, s1, s2, s3, c0, c1, c2, c3, x, xs, _, _, hpk⟩
      · subst hpk
        rw [buildResponse_handshake] at hB
        injection hB with hB
        subst hB
        exact ⟨rfl, Or.inl rfl⟩
      · subst hpk
        rw [buildResponse_information] at hB
        split at hB
        · cases hB
        · injection hB with hB
          subst hB
          exact ⟨rfl, Or.inr rfl⟩

/-- C19 at the handshake request `09 00 00 00 01`. -/
theorem C19_decoded_kind_witness :
    (request.Unmarshal {} [0x09, 0, 0, 0, 1]).2.2 = none ∧
      ((request.Unmarshal {} [0x09, 0, 0, 0, 1]).1.RequestType = queryTypeHandshake ∨
        (request.Unmarshal {} [0x09, 0, 0, 0, 1]).1.RequestType = queryTypeInformation) :=
  ⟨by decide, (C19_decoded_kind {} [0x09, 0, 0, 0, 1] (by decide)).1⟩

/-- C20 (counterexample): a handler whose info map has the two pairs `a`=`1` and
`b`=`2` gets two 13-byte information requests that carry the derived token and
differ only in bytes 9 to 12; the `range` of the first call visits `a` first, that
of the second `b` first. For no digest function do the two calls leave the same
bytes in the buffer. -/
theorem C20_counterexample :
    ¬ ∃ H : Sha512, ∀ r1 r2 : HandleResult,
        twoPairHandlerAB.HandlePacket H
            ([0x00, 0, 0, 0, 1] ++
              BigEndian.PutUint32
                (uint32 (int32 (getTokenString H twoPairHandlerAB.tokenGen.token
                  sampleAddr.String))) ++
              [1, 2, 3, 4]) sampleAddr = some r1 →
        twoPairHandlerBA.HandlePacket H
            ([0x00, 0, 0, 0, 1] ++
              BigEndian.PutUint32
                (uint32 (int32 (getTokenString H twoPairHandlerBA.tokenGen.token
                  sampleAddr.String))) ++
              [5, 6, 7, 8]) sampleAddr = some r2 →
        r1.buf = r2.buf := by
  rintro ⟨H, h⟩
  have hT : int32 (int32 (getTokenString H [] sampleAddr.String)) =
      int32 (getTokenString H [] sampleAddr.String) :=
    int32_of_range _ (int32_range _).1 (int32_range _).2
  have h1 := HandlePacket_information_match H twoPairHandlerAB sampleAddr 0 0 0 1
    (UInt8.ofNat (uint32 (int32 (getTokenString H [] sampleAddr.String)) / 16777216 % 256))
    (UInt8.ofNat (uint32 (int32 (getTokenString H [] sampleAddr.String)) / 65536 % 256))
    (UInt8.ofNat (uint32 (int32 (getTokenString H [] sampleAddr.String)) / 256 % 256))
    (UInt8.ofNat (uint32 (int32 (getTokenString H [] sampleAddr.String)) % 256))
    1 2 3 4 [] ((int32_read_back _).trans hT)
  have h2 := HandlePacket_information_match H twoPairHandlerBA sampleAddr 0 0 0 1
    (UInt8.ofNat (uint32 (int32 (getTokenString H [] sampleAddr.String)) / 16777216 % 256))
    (UInt8.ofNat (uint32 (int32 (getTokenString H [] sampleAddr.String)) / 65536 % 256))
    (UInt8.ofNat (uint32 (int32 (getTokenString H [] sampleAddr.String)) / 256 % 256))
    (UInt8.ofNat (uint32 (int32 (getTokenString H [] sampleAddr.String)) % 256))
    5 6 7 8 [] ((int32_read_back _).trans hT)
  have hbuf := h _ _ h1 h2
  exact absurd hbuf (by decide)

/-- C20 (amended): for every handler and address, two 13-byte information requests
that agree on bytes 0 to 8 and differ only in bytes 9 to 12 give the same error or
none, in whatever order `order2` the `range` of the second call visits the info
pairs; when the first call fails the two buffers are the same as well; and when the
`range` of both calls visits the pairs in the same order the whole results are the
same, buffer included. -/
theorem C20_trailing_bytes_ignored (H : Sha512) (q : QueryHandler) (A : Addr)
    (s0 s1 s2 s3 c0 c1 c2 c3 t0 t1 t2 t3 u0 u1 u2 u3 : UInt8)
    (order2 : List (Bytes × Bytes)) :
    (q.HandlePacket H [0x00, s0, s1, s2, s3, c0, c1, c2, c3, t0, t1, t2, t3] A).map
          (fun r => r.err) =
        (QueryHandler.HandlePacket H { q with queryInfo := order2 }
          [0x00, s0, s1, s2, s3, c0, c1, c2, c3, u0, u1, u2, u3] A).map (fun r => r.err) ∧
      ((q.HandlePacket H [0x00, s0, s1, s2, s3, c0, c1, c2, c3, t0, t1, t2, t3] A).map
            (fun r => r.err) = some none ∨
        (q.HandlePacket H [0x00, s0, s1, s2, s3, c0, c1, c2, c3, t0, t1, t2, t3] A).map
            (fun r => r.buf) =
          (QueryHandler.HandlePacket H { q with queryInfo := order2 }
            [0x00, s0, s1, s2, s3, c0, c1, c2, c3, u0, u1, u2, u3] A).map (fun r => r.buf)) ∧
      q.HandlePacket H [0x00, s0, s1, s2, s3, c0, c1, c2, c3, t0, t1, t2, t3] A =
        q.HandlePacket H [0x00, s0, s1, s2, s3, c0, c1, c2, c3, u0, u1, u2, u3] A := by
  by_cases h : int32 (BigEndian.Uint32 c0 c1 c2 c3) =
      int32 (getTokenString H q.tokenGen.token A.String)
  · rw [HandlePacket_information_match H q A s0 s1 s2 s3 c0 c1 c2 c3 t0 t1 t2 t3 [] h,
      HandlePacket_information_match H q A s0 s1 s2 s3 c0 c1 c2 c3 u0 u1 u2 u3 [] h,
      HandlePacket_information_match H { q with queryInfo := order2 } A
        s0 s1 s2 s3 c0 c1 c2 c3 u0 u1 u2 u3 [] h]
    exact ⟨rfl, Or.inl rfl, rfl⟩
  · rw [HandlePacket_information_mismatch H q A s0 s1 s2 s3 c0 c1 c2 c3 t0 t1 t2 t3 [] h,
      HandlePacket_information_mismatch H q A s0 s1 s2 s3 c0 c1 c2 c3 u0 u1 u2 u3 [] h,
      HandlePacket_information_mismatch H { q with queryInfo := order2 } A
        s0 s1 s2 s3 c0 c1 c2 c3 u0 u1 u2 u3 [] h]
    exact ⟨rfl, Or.inr rfl, rfl⟩

end query
